import Mathlib

/-!
Formal model of the Bulk Activity Import & Reconciliation Pipeline of
`byte-data/imptracker` (`src/uploads/views.py`, together with the model
classes it touches: `activities/models.py`, `masters/models.py`,
`accounts/models.py`, `uploads/models.py`, `audit/models.py`).

Modelling conventions, shared by all definitions below:

* Spreadsheet cells are modelled as `Option String`; `none` stands for a
  missing column or a pandas `NaN` cell, `some s` for a cell holding the
  string `s`.  (A float `NaN` cell is truthy in Python but blank under
  `_is_blank`; no verified property depends on the difference, and we map
  such cells to `none`.)
* Python `float` amounts are modelled as `Rat`: every property verified
  here only observes parse success/failure and exact small values (0),
  on which decimal rationals and binary floats agree.  The model's
  numeric literal parser handles sign / digits / decimal point /
  exponent; Python's `float` additionally accepts `inf`/`nan` spellings
  and `_` digit separators, which no property here exercises.
* Django querysets are modelled as Lean lists in primary-key (insertion)
  order; `.first()` on an unordered queryset is the list head,
  `__iexact` is equality of lowercased strings and `__icontains` is
  case-insensitive substring containment.  Many-to-many collections are
  stored as lists of the unique natural keys (funder `code`, cluster
  `short_name`) in insertion order.
* The model starts from the column-normalised dataframe
  (`_normalize_columns` maps both `Activity ID` and `activity_id`
  headers to a single canonical column, so rows carry one id cell).
-/

namespace ImpTracker

/-- Lowercase of a string, as Python `str.lower` on the ASCII range. -/
def lower (s : String) : String := String.mk (s.data.map Char.toLower)

/-- Uppercase of a string, as Python `str.upper` on the ASCII range. -/
def upper (s : String) : String := String.mk (s.data.map Char.toUpper)

/-- Python `str.strip`: drop leading and trailing whitespace. -/
def strip (s : String) : String :=
  String.mk (((s.data.dropWhile Char.isWhitespace).reverse.dropWhile
    Char.isWhitespace).reverse)

/-- The Python truthiness of an optional string cell: `None` and `''` are
falsy, any other string is truthy. -/
def truthy : Option String → Bool
  | none => false
  | some s => s ≠ ""

/-- The `_is_blank` helper of `uploads/views.py`: `None`/`NaN` cells, cells
stripping to the empty string, and the literal tokens `nan`/`none`
(case-insensitively) are blank. -/
def isBlank : Option String → Bool
  | none => true
  | some v =>
    let s := strip v
    s = "" || lower s = "nan" || lower s = "none"

/-- Split a string at every occurrence of `,`, `&` or `;`, as
`re.split('[,&;]', s)` does (empty pieces are kept; callers filter). -/
def splitRefs (s : String) : List String :=
  (s.data.splitOnP (fun c => c = ',' || c = '&' || c = ';')).map
    (fun l => String.mk l)

/-- The multi-value tokens of a cluster/funder cell as `_summarize` and
`_process_dataframe` compute them: split on `,`/`&`/`;`, strip each part,
keep parts that are non-empty and not blank. -/
def refParts (s : String) : List String :=
  (splitRefs s).filterMap (fun p =>
    let t := strip p
    if t ≠ "" && !(isBlank (some p)) then some t else none)

/-- The cluster tokens used by the duplicate-detection narrowing in
`_summarize` (`cparts`): split, strip, keep non-empty parts — with no
`_is_blank` filter, unlike `refParts`. -/
def cpartsOf (s : String) : List String :=
  (splitRefs s).filterMap (fun p =>
    let t := strip p
    if t ≠ "" then some t else none)

/-- The `_normalize_text` helper: replace non-breaking spaces by spaces,
then collapse all internal whitespace runs to single spaces and trim, via
`' '.join(s.split())`. -/
def normalizeText (s : String) : String :=
  let s := String.mk (s.data.map (fun c => if c = ' ' then ' ' else c))
  String.intercalate " "
    ((s.data.splitOnP Char.isWhitespace).map String.mk |>.filter (· ≠ ""))

/-- The `_normalize_text` of an optional cell; `None` maps to `''`. -/
def normalizeCell : Option String → String
  | none => ""
  | some s => normalizeText s

/-- The `_normalize_key` helper: normalised text, lowercased. -/
def normalizeKey (s : String) : String := lower (normalizeText s)

/-- Does `hay` start with `needle` (lists of characters)? -/
def startsWith : List Char → List Char → Bool
  | [], _ => true
  | _ :: _, [] => false
  | c :: cs, d :: ds => c = d && startsWith cs ds

/-- Is `needle` a contiguous sublist of `hay`, as Python `needle in hay`
on strings? -/
def containsSub (needle hay : List Char) : Bool :=
  match hay with
  | [] => needle.isEmpty
  | _ :: t => startsWith needle hay || containsSub needle t

/-- Case-insensitive substring containment, as Django `__icontains`:
does `hay` contain `needle` ignoring case? -/
def icontains (hay needle : String) : Bool :=
  containsSub (lower needle).data (lower hay).data

/-- Case-insensitive equality, as Django `__iexact`. -/
def iexact (a b : String) : Bool := lower a = lower b

/-- The first four characters of a token (`p[:4]`), used by the fuzzy
reference fallback. -/
def take4 (s : String) : String := String.mk (s.data.take 4)

/-- Value of a digit list read in base 10. -/
def digitsVal (l : List Char) : Nat :=
  l.foldl (fun n c => n * 10 + (c.toNat - 48)) 0

/-- Parse a non-empty all-digit string to a natural number; `none`
otherwise.  (Python `int(s)` also accepts signs and surrounding
whitespace; the only caller feeds it `aid.split('-')[-1]`, a bare digit
run for every id this pipeline generates.) -/
def parseDigits? (l : List Char) : Option Nat :=
  if l ≠ [] && l.all Char.isDigit then some (digitsVal l) else none

/-- The character of a decimal digit. -/
def digitChar (n : Nat) : Char := Char.ofNat (48 + n)

/-- Decimal digit run of `n`, most significant first; the fuel argument
only needs to exceed the digit count (`n` itself suffices). -/
def natDigits : Nat → Nat → List Char
  | 0, _ => []
  | fuel + 1, n =>
    if n < 10 then [digitChar n]
    else natDigits fuel (n / 10) ++ [digitChar (n % 10)]

/-- Python `str(n)` on a non-negative integer (and Lean's `toString`):
the decimal representation. -/
def natStr (n : Nat) : String := String.mk (natDigits (n + 1) n)

/-- Parse an unsigned decimal mantissa (`123`, `1.5`, `.5`, `2.`) to a
rational; `none` when malformed. -/
def parseMantissa? (l : List Char) : Option Rat :=
  match l.splitOn '.' with
  | [i] =>
    if i ≠ [] && i.all Char.isDigit then some (digitsVal i) else none
  | [i, f] =>
    if (i ++ f) ≠ [] && i.all Char.isDigit && f.all Char.isDigit then
      some ((digitsVal (i ++ f) : Rat) / ((10 : Rat) ^ f.length))
    else none
  | _ => none

/-- Parse an exponent part (optionally signed digit run). -/
def parseExp? (l : List Char) : Option Int :=
  match l with
  | '+' :: r => (parseDigits? r).map Int.ofNat
  | '-' :: r => (parseDigits? r).map (fun n => -(n : Int))
  | r => (parseDigits? r).map Int.ofNat

/-- Model of Python `float(s)` on finite decimal literals: optional sign,
decimal mantissa, optional `e`/`E` exponent.  Returns `none` where
`float` raises `ValueError`. -/
def parseFloat? (s : String) : Option Rat := do
  let l := s.data
  let (sign, l) :=
    match l with
    | '+' :: r => ((1 : Rat), r)
    | '-' :: r => ((-1 : Rat), r)
    | r => ((1 : Rat), r)
  match l.splitOn 'e' with
  | [m] =>
    match m.splitOn 'E' with
    | [m] => do return sign * (← parseMantissa? m)
    | [m, e] => do return sign * (← parseMantissa? m) * (10 : Rat) ^ (← parseExp? e)
    | _ => none
  | [m, e] =>
    if m.any (fun c => c = 'E') || e.any (fun c => c = 'E') then none
    else do return sign * (← parseMantissa? m) * (10 : Rat) ^ (← parseExp? e)
  | _ => none

/-- The numeric-cell cleanup of `_process_dataframe`:
`str(v).strip().replace(',', '').replace(' ', '')`. -/
def cleanNumStr (s : String) : String :=
  String.mk ((strip s).data.filter (fun c => c ≠ ',' && c ≠ ' '))

/-- Gregorian leap-year test, as `calendar.isleap`. -/
def isLeap (y : Nat) : Bool :=
  (y % 4 = 0 && y % 100 ≠ 0) || y % 400 = 0

/-- Days in a month, as `calendar.monthrange(y, m)[1]` (months 1–12;
other inputs, which no caller produces, map to 0). -/
def daysInMonth (y m : Nat) : Nat :=
  if m = 1 || m = 3 || m = 5 || m = 7 || m = 8 || m = 10 || m = 12 then 31
  else if m = 4 || m = 6 || m = 9 || m = 11 then 30
  else if m = 2 then (if isLeap y then 29 else 28)
  else 0

/-- A calendar date (`datetime.date`). -/
structure Date where
  year : Nat
  month : Nat
  day : Nat
  deriving Repr, DecidableEq

/-- Month number for an abbreviated month name (`%b`), lowercased. -/
def monthAbbrev? (s : String) : Option Nat :=
  match s with
  | "jan" => some 1 | "feb" => some 2 | "mar" => some 3 | "apr" => some 4
  | "may" => some 5 | "jun" => some 6 | "jul" => some 7 | "aug" => some 8
  | "sep" => some 9 | "oct" => some 10 | "nov" => some 11 | "dec" => some 12
  | _ => none

/-- Month number for a full month name (`%B`), lowercased. -/
def monthFull? (s : String) : Option Nat :=
  match s with
  | "january" => some 1 | "february" => some 2 | "march" => some 3
  | "april" => some 4 | "may" => some 5 | "june" => some 6
  | "july" => some 7 | "august" => some 8 | "september" => some 9
  | "october" => some 10 | "november" => some 11 | "december" => some 12
  | _ => none

/-- The `%y` two-digit-year pivot of `strptime`: 00–68 map to 2000–2068,
69–99 to 1969–1999. -/
def pivotY2 (n : Nat) : Nat := if n ≤ 68 then 2000 + n else 1900 + n

/-- Parse the year half of a `Mon-YY` / `Mon-YYYY` token: exactly two
digits (`%y`, with the pivot) or exactly four digits (`%Y`). -/
def parseYearPart? (l : List Char) : Option Nat :=
  if l.length = 2 && l.all Char.isDigit then some (pivotY2 (digitsVal l))
  else if l.length = 4 && l.all Char.isDigit then some (digitsVal l)
  else none

/-- The explicit `strptime` formats tried first by `_parse_planned_month`
(`%b-%y`, `%b-%Y`, `%B-%y`, `%B-%Y`, all case-insensitive): a month name
(abbreviated or full), a `-`, and a two- or four-digit year.  Returns the
parsed (year, month). -/
def parseMonYear? (s : String) : Option (Nat × Nat) :=
  match (lower s).data.splitOn '-' with
  | [m, y] => do
    let mon ← match monthAbbrev? (String.mk m) with
      | some mo => some mo
      | none => monthFull? (String.mk m)
    let yr ← parseYearPart? y
    return (yr, mon)
  | _ => none

/-- A stand-in for `pandas.to_datetime(s, errors='coerce')`, the flexible
fallback parser: an oracle giving the (year, month) of the parsed
timestamp, or `none` for `NaT`.  Theorems quantify over it. -/
def PdParse := String → Option (Nat × Nat)

/-- The `_parse_planned_month` helper of `uploads/views.py`: strip; empty
or `None` gives `none`; try the explicit month-year `strptime` formats,
then the pandas fallback `pd`; on either success return the last calendar
day of the parsed month, via `calendar.monthrange`. -/
def parsePlannedMonth (pd : PdParse) (value : Option String) : Option Date :=
  match value with
  | none => none
  | some v =>
    let s := strip v
    if s = "" then none
    else
      match parseMonYear? s with
      | some (yr, mon) => some ⟨yr, mon, daysInMonth yr mon⟩
      | none =>
        match pd s with
        | some (yr, mon) => some ⟨yr, mon, daysInMonth yr mon⟩
        | none => none

/-- A master funder (`masters.Funder`): unique `code`, free `name`. -/
structure FunderRec where
  code : String
  name : String
  active : Bool
  deriving Repr, DecidableEq

/-- A cluster (`accounts.Cluster`): unique `short_name`, full name. -/
structure ClusterRec where
  shortName : String
  fullName : String
  deriving Repr, DecidableEq

/-- An activity status (`masters.ActivityStatus`). -/
structure StatusRec where
  name : String
  deriving Repr, DecidableEq

/-- A currency (`masters.Currency`). -/
structure CurrencyRec where
  code : String
  name : String
  isDefault : Bool
  deriving Repr, DecidableEq

/-- A persisted activity (`activities.Activity`), restricted to the
fields the upload pipeline reads or writes.  Many-to-many funders and
clusters are held as the lists of funder codes / cluster short names in
insertion order. -/
structure ActivityRec where
  pk : Nat
  activityId : String
  name : String
  year : Nat
  statusName : String
  plannedMonth : Date
  quarter : Nat
  totalBudget : Rat
  disbursedAmount : Rat
  currencyCode : Option String
  notes : String
  funderCodes : List String
  clusterShorts : List String
  deriving Repr, DecidableEq

/-- One audit record (`audit.AuditLog`), restricted to the fields the
pipeline writes. -/
structure AuditRec where
  action : String
  objectRepr : String
  deriving Repr, DecidableEq

/-- One upload batch (`uploads.UploadBatch`), restricted to the fields
the pipeline writes. -/
structure BatchRec where
  year : Nat
  fileName : String
  deriving Repr, DecidableEq

/-- The persistent store: each model's table as a list in primary-key
(insertion) order, plus the next activity primary key. -/
structure Store where
  statuses : List StatusRec
  funders : List FunderRec
  clusters : List ClusterRec
  currencies : List CurrencyRec
  activities : List ActivityRec
  audits : List AuditRec
  batches : List BatchRec
  nextActPk : Nat
  deriving Repr, DecidableEq

/-- The `status_map` dictionary `{_normalize_key(s.name): s}`: on key
collision the later row wins, so lookup scans from the back. -/
def statusByKey (st : Store) (key : String) : Option StatusRec :=
  st.statuses.reverse.find? (fun s => normalizeKey s.name = key)

/-- The default status:
`ActivityStatus.objects.filter(name__iexact='Not Implemented').first()`. -/
def defaultStatus (st : Store) : Option StatusRec :=
  st.statuses.find? (fun s => iexact s.name "Not Implemented")

/-- `Funder.objects.filter(name__iexact=p).first()`. -/
def funderExact (st : Store) (p : String) : Option FunderRec :=
  st.funders.find? (fun f => iexact f.name p)

/-- The fuzzy funder fallback
`Funder.objects.filter(name__icontains=p[:4]).first()`. -/
def funderFuzzy (st : Store) (p : String) : Option FunderRec :=
  st.funders.find? (fun f => icontains f.name (take4 p))

/-- The fuzzy funder suggestion list offered by `_summarize`:
`Funder.objects.filter(name__icontains=p[:4]).values_list('name')[:5]`. -/
def funderSimilar (st : Store) (p : String) : List String :=
  ((st.funders.filter (fun f => icontains f.name (take4 p))).map
    (fun f => f.name)).take 5

/-- Exact cluster resolution: short name match first, then full name
(`short_name__iexact` / `full_name__iexact`, each `.first()`). -/
def clusterExact (st : Store) (p : String) : Option ClusterRec :=
  match st.clusters.find? (fun c => iexact c.shortName p) with
  | some c => some c
  | none => st.clusters.find? (fun c => iexact c.fullName p)

/-- The fuzzy cluster fallback
`Cluster.objects.filter(short_name__icontains=p[:4]).first()`. -/
def clusterFuzzy (st : Store) (p : String) : Option ClusterRec :=
  st.clusters.find? (fun c => icontains c.shortName (take4 p))

/-- The fuzzy cluster suggestion list offered by `_summarize`
(`short_name__icontains=p[:4]`, short names, capped at 5). -/
def clusterSimilar (st : Store) (p : String) : List String :=
  ((st.clusters.filter (fun c => icontains c.shortName (take4 p))).map
    (fun c => c.shortName)).take 5

/-- `Activity.objects.filter(activity_id=aid).first()` (exact match on
the unique id). -/
def activityById (st : Store) (aid : String) : Option ActivityRec :=
  st.activities.find? (fun a => a.activityId = aid)

/-- Boolean string order agreeing with the byte order a text database
column uses on ASCII data. -/
def strLe (a b : String) : Bool := decide (a < b) || a = b

/-- Insert into a list sorted by `le`. -/
def insertLe (le : α → α → Bool) (a : α) : List α → List α
  | [] => [a]
  | b :: bs => if le a b then a :: b :: bs else b :: insertLe le a bs

/-- Insertion sort by `le`. -/
def sortLe (le : α → α → Bool) : List α → List α
  | [] => []
  | a :: as => insertLe le a (sortLe le as)

/-- The default queryset order of `Activity` (`Meta.ordering =
['-year', 'activity_id']`): year descending, then id ascending. -/
def actLe (a b : ActivityRec) : Bool :=
  b.year < a.year || (a.year = b.year && strLe a.activityId b.activityId)

/-- The duplicate-detection query of `_summarize`: activities whose name
equals the stripped incoming name case-insensitively and whose year
matches; when the row lists clusters (`cparts` non-empty), only
activities sharing at least one listed cluster short name (exact match,
as `clusters__short_name__in`); `.distinct()` is implicit because each
activity appears once; results in the model's default queryset order. -/
def dupMatches (st : Store) (nm : String) (yr : Nat)
    (cluster : Option String) : List ActivityRec :=
  let base := st.activities.filter
    (fun a => iexact a.name (strip nm) && a.year = yr)
  let narrowed :=
    match cluster with
    | some cs =>
      if cs ≠ "" && cpartsOf cs ≠ [] then
        base.filter (fun a => a.clusterShorts.any (fun c => c ∈ cpartsOf cs))
      else base
    | none => base
  sortLe actLe narrowed

/-- Add to a Python `set` modelled as a duplicate-free list in insertion
order (only membership and emptiness are ever observed). -/
def insertNew (l : List String) (x : String) : List String :=
  if x ∈ l then l else l ++ [x]

/-- Python dict assignment `m[k] = v` on an association list. -/
def setEntry (m : List (String × List String)) (k : String)
    (v : List String) : List (String × List String) :=
  if m.any (fun e => e.1 = k) then
    m.map (fun e => if e.1 = k then (k, v) else e)
  else m ++ [(k, v)]

/-- One canonical parsed row of the normalised dataframe: each cell an
optional string (see the conventions at the top of the file). -/
structure Row where
  name : Option String := none
  cluster : Option String := none
  funder : Option String := none
  planned : Option String := none
  budget : Option String := none
  disbursed : Option String := none
  status : Option String := none
  notes : Option String := none
  activityId : Option String := none
  currency : Option String := none
  deriving Repr, DecidableEq

/-- A column-normalised dataframe: its rows, plus whether the canonical
`Planned Implementation Month` and `Activity ID` columns exist at all
(rows of a frame lacking a column have `none` in that field). -/
structure DataFrame where
  hasPlannedCol : Bool
  hasIdCol : Bool
  rows : List Row
  deriving Repr, DecidableEq

/-- One entry of the `duplicates` list built by `_summarize`. -/
structure DupRec where
  row : Nat
  name : String
  existingId : String
  existingName : String
  existingYear : Nat
  existingCluster : String
  deriving Repr, DecidableEq

/-- One entry of the `updates` list built by `_summarize`. -/
structure UpdRec where
  row : Nat
  activityId : String
  name : Option String
  existingName : String
  existingPk : Nat
  deriving Repr, DecidableEq

/-- The review Summary, restricted to the fields some verified property
observes (frequency tables, year range and `status_checks` are view-only
aggregations no claim touches). -/
structure Summary where
  totalRows : Nat
  budgetSum : Rat
  disbursedSum : Rat
  unknownStatuses : List String
  defaultStatusMissing : Bool
  invalidDates : Nat
  duplicates : List DupRec
  updates : List UpdRec
  unknownFunders : List String
  unknownClusters : List String
  funderSuggestions : List (String × List String)
  clusterSuggestions : List (String × List String)
  hasIdColumn : Bool
  deriving Repr, DecidableEq

/-- The numeric cleanup used by the summary sums:
`str(v).replace(',', '').strip()`. -/
def cleanSumNum (s : String) : String :=
  strip (String.mk (s.data.filter (fun c => c ≠ ',')))

/-- The accumulator threaded through `_summarize`'s row loop. -/
structure SummAcc where
  budgetSum : Rat := 0
  disbursedSum : Rat := 0
  unknownStatuses : List String := []
  defaultStatusMissing : Bool := false
  invalidDates : Nat := 0
  duplicates : List DupRec := []
  updates : List UpdRec := []
  unknownFunders : List String := []
  unknownClusters : List String := []
  funderSuggestions : List (String × List String) := []
  clusterSuggestions : List (String × List String) := []
  deriving Repr, DecidableEq

/-- The duplicate entry built for `existing` by `_summarize`. -/
def mkDup (rowNum : Nat) (nm : String) (a : ActivityRec) : DupRec :=
  { row := rowNum
    name := strip nm
    existingId := a.activityId
    existingName := a.name
    existingYear := a.year
    existingCluster := (a.clusterShorts.head?).getD "" }

/-- The numeric-sum updates of one `_summarize` iteration (parse
failures are swallowed by the surrounding try/except). -/
def summNums (row : Row) (acc : SummAcc) : SummAcc :=
  let acc :=
    match row.budget with
    | some b =>
      if !isBlank (some b) then
        match parseFloat? (cleanSumNum b) with
        | some q => { acc with budgetSum := acc.budgetSum + q }
        | none => acc
      else acc
    | none => acc
  match row.disbursed with
  | some b =>
    if !isBlank (some b) then
      match parseFloat? (cleanSumNum b) with
      | some q => { acc with disbursedSum := acc.disbursedSum + q }
      | none => acc
    else acc
  | none => acc

/-- The unknown-cluster bookkeeping for one cluster token of a row. -/
def summClusterTok (st : Store) (acc : SummAcc) (p : String) : SummAcc :=
  if clusterExact st p = none then
    let acc := { acc with
      unknownClusters := insertNew acc.unknownClusters p }
    let similar := clusterSimilar st p
    if similar ≠ [] then
      { acc with clusterSuggestions :=
          setEntry acc.clusterSuggestions p similar }
    else acc
  else acc

/-- The unknown-cluster detection of one `_summarize` iteration. -/
def summClusters (st : Store) (row : Row) (acc : SummAcc) : SummAcc :=
  match row.cluster with
  | some cs =>
    if !isBlank (some cs) then
      (refParts cs).foldl (summClusterTok st) acc
    else acc
  | none => acc

/-- The unknown-funder bookkeeping for one funder token of a row. -/
def summFunderTok (st : Store) (acc : SummAcc) (p : String) : SummAcc :=
  if funderExact st p = none then
    let acc := { acc with
      unknownFunders := insertNew acc.unknownFunders p }
    let similar := funderSimilar st p
    if similar ≠ [] then
      { acc with funderSuggestions :=
          setEntry acc.funderSuggestions p similar }
    else acc
  else acc

/-- The unknown-funder detection of one `_summarize` iteration. -/
def summFunders (st : Store) (row : Row) (acc : SummAcc) : SummAcc :=
  match row.funder with
  | some fs =>
    if !isBlank (some fs) then
      (refParts fs).foldl (summFunderTok st) acc
    else acc
  | none => acc

/-- The status check of one `_summarize` iteration: blank falls back to
the default status, or flags the missing default; a non-blank status
must resolve through the status map. -/
def summStatus (st : Store) (row : Row) (acc : SummAcc) : SummAcc :=
  if isBlank row.status then
    if defaultStatus st = none then
      { acc with
          defaultStatusMissing := true
          unknownStatuses := insertNew acc.unknownStatuses "Not Implemented" }
    else acc
  else
    let ns := normalizeText (row.status.getD "")
    if statusByKey st (normalizeKey ns) = none then
      { acc with unknownStatuses := insertNew acc.unknownStatuses ns }
    else acc

/-- The planned month a `_summarize` iteration sees for a row (`None`
when the raw cell is falsy, as the `if planned:` guard skips parsing). -/
def rowParsedDt (pd : PdParse) (row : Row) : Option Date :=
  if truthy row.planned then parsePlannedMonth pd row.planned else none

/-- The invalid-date counting of one `_summarize` iteration. -/
def summInvalid (pd : PdParse) (row : Row) (acc : SummAcc) : SummAcc :=
  if rowParsedDt pd row = none then
    { acc with invalidDates := acc.invalidDates + 1 }
  else acc

/-- The update entries one row contributes: when the external activity id
cell is truthy and matches a persisted activity. -/
def rowUpd (st : Store) (idx : Nat) (row : Row) : List UpdRec :=
  if truthy row.activityId then
    match activityById st (strip (row.activityId.getD "")) with
    | some a =>
      [{ row := idx + 2
         activityId := strip (row.activityId.getD "")
         name := row.name
         existingName := a.name
         existingPk := a.pk }]
    | none => []
  else []

/-- The update detection of one `_summarize` iteration. -/
def summUpdates (st : Store) (idx : Nat) (row : Row) (acc : SummAcc) :
    SummAcc :=
  { acc with updates := acc.updates ++ rowUpd st idx row }

/-- The duplicate detection of one `_summarize` iteration, appended after
the update detection; `acc.updates` already holds this row's update
entry, so `already_in_updates` can only fire on it. -/
def summDups (pd : PdParse) (st : Store) (idx : Nat) (row : Row)
    (acc : SummAcc) : SummAcc :=
  if truthy row.name then
    match rowParsedDt pd row with
    | some d =>
      let nm := row.name.getD ""
      let similar := dupMatches st nm d.year row.cluster
      if similar ≠ [] then
        let alreadyInUpdates :=
          truthy row.activityId && acc.updates.any (fun u => u.row = idx + 2)
        if !alreadyInUpdates then
          { acc with duplicates := acc.duplicates ++
              ((similar.take 3).map (mkDup (idx + 2) nm)) }
        else acc
      else acc
    | none => acc
  else acc

/-- One iteration of `_summarize`'s row loop (`idx` is the dataframe
index; reported row numbers are `idx + 2`), as the composition of its
steps in source order. -/
def summStep (pd : PdParse) (st : Store) (idx : Nat) (row : Row)
    (acc : SummAcc) : SummAcc :=
  summDups pd st idx row (summUpdates st idx row (summInvalid pd row
    (summStatus st row (summFunders st row (summClusters st row
      (summNums row acc))))))

/-- The row loop of `_summarize`, indexed like `df.iterrows()`. -/
def summAux (pd : PdParse) (st : Store) : Nat → List Row → SummAcc → SummAcc
  | _, [], acc => acc
  | idx, r :: rs, acc => summAux pd st (idx + 1) rs (summStep pd st idx r acc)

/-- The `_summarize` view function: a pure function of the dataframe and
the current master data. -/
def summarize (pd : PdParse) (df : DataFrame) (st : Store) : Summary :=
  let acc := summAux pd st 0 df.rows {}
  { totalRows := df.rows.length
    budgetSum := acc.budgetSum
    disbursedSum := acc.disbursedSum
    unknownStatuses := acc.unknownStatuses
    defaultStatusMissing := acc.defaultStatusMissing
    invalidDates := acc.invalidDates
    duplicates := acc.duplicates
    updates := acc.updates
    unknownFunders := acc.unknownFunders
    unknownClusters := acc.unknownClusters
    funderSuggestions := acc.funderSuggestions
    clusterSuggestions := acc.clusterSuggestions
    hasIdColumn := df.hasIdCol }

/-- Cluster short-name synthesis on confirmed creation:
`''.join([ch for ch in p.upper() if ch.isalnum()])[:20] or p[:20]`. -/
def genClusterShort (p : String) : String :=
  let s := String.mk (((upper p).data.filter Char.isAlphanum).take 20)
  if s ≠ "" then s else String.mk (p.data.take 20)

/-- Funder code base on confirmed creation:
`''.join([ch for ch in p.upper() if ch.isalnum()])[:6] or 'FDR'`. -/
def funderBase (p : String) : String :=
  let s := String.mk (((upper p).data.filter Char.isAlphanum).take 6)
  if s ≠ "" then s else "FDR"

/-- The collision loop of funder-code synthesis: start from `base`;
while the code is taken, try `base1`, `base2`, ….  The loop always
terminates because `n` existing codes cannot block all of the `n + 1`
pairwise-distinct candidates tried here; the final fallback arm is
unreachable. -/
def genFunderCode (st : Store) (base : String) : String :=
  if st.funders.all (fun f => f.code ≠ base) then base
  else
    match ((List.range (st.funders.length + 1)).map
        (fun i => base ++ natStr (i + 1))).find?
        (fun c => st.funders.all (fun f => f.code ≠ c)) with
    | some c => c
    | none => base

/-- Python `s[-2:]` (`str(self.year)[-2:]` in `Activity.save`). -/
def last2 (s : String) : String :=
  String.mk (s.data.drop (s.data.length - 2))

/-- The numeric suffix of an activity id:
`int(aid.split('-')[-1])`, `None` when that raises. -/
def intSuffix? (aid : String) : Option Nat :=
  match (aid.data.splitOn '-').getLast? with
  | some l => parseDigits? l
  | none => none

/-- `Activity._next_sequence_for_year`: one more than the largest numeric
suffix among the ids of activities of the same year. -/
def nextSeqForYear (st : Store) (yr : Nat) : Nat :=
  (st.activities.foldl (fun m a =>
    if a.year = yr then
      match intSuffix? a.activityId with
      | some n => max m n
      | none => m
    else m) 0) + 1

/-- `f"{seq:06d}"`: decimal, zero-padded to at least six digits. -/
def padSeq (n : Nat) : String :=
  let s := natStr n
  String.mk (List.replicate (6 - s.length) '0') ++ s

/-- The auto-generated activity id of `Activity.save`:
`f"Y{str(year)[-2:]}-{seq:06d}"`. -/
def genActivityId (st : Store) (yr : Nat) : String :=
  "Y" ++ last2 (natStr yr) ++ "-" ++ padSeq (nextSeqForYear st yr)

/-- The checks of `Activity.clean` that an upload-built activity can
fail: non-negative budget, non-negative disbursed amount, disbursed not
exceeding budget when non-zero.  (The recurrence and procurement checks
always pass for upload-built activities, whose those fields keep their
defaults.)  `true` means `clean()` returns normally. -/
def cleanCheck (tb da : Rat) : Bool :=
  !(tb < 0) && !(da < 0) && !(da ≠ 0 && tb < da)

/-- `Activity._compute_last_day_of_month`. -/
def lastDayOf (d : Date) : Date :=
  ⟨d.year, d.month, daysInMonth d.year d.month⟩

/-- `Activity._compute_quarter`. -/
def quarterOf (d : Date) : Nat := (d.month - 1) / 3 + 1

/-- The currency resolution of `_process_dataframe`: the first currency,
overridden by an exact (case-insensitive) code or name match on a truthy
`Currency` cell. -/
def resolveCurrency (st : Store) (row : Row) : Option String :=
  let cur := (st.currencies.head?).map (fun c => c.code)
  if truthy row.currency then
    let cv := strip (row.currency.getD "")
    match st.currencies.find? (fun c => iexact c.code cv) with
    | some c => some c.code
    | none =>
      match st.currencies.find? (fun c => iexact c.name cv) with
      | some c => some c.code
      | none => cur
  else cur

/-- `Activity.save`'s default-currency fill-in for activities saved with
no currency. -/
def fillDefaultCurrency (st : Store) (c : Option String) : Option String :=
  match c with
  | some c => some c
  | none => (st.currencies.find? (fun cu => cu.isDefault)).map (fun cu => cu.code)

/-- Django's m2m `set()` of resolved references, modelled as the list of
unique keys with duplicates dropped (first occurrence kept). -/
def dedupKeepFirst (l : List String) : List String :=
  l.foldl insertNew []

/-- The `activity_name` used in row error messages:
`_normalize_text(name) if not _is_blank(name) else "No Name"`. -/
def errName (name : Option String) : String :=
  if !isBlank name then normalizeCell name else "No Name"

/-- Accumulator of one row's cluster (or funder) reference resolution:
the store (creation mutates it), the resolved unique keys in order, and
the row errors raised so far. -/
structure ResolveAcc where
  store : Store
  objs : List String
  errors : List String
  deriving Repr, DecidableEq

/-- Resolution of one cluster token in `_process_dataframe`: exact match
(short then full name), else fuzzy first match on the 4-character
prefix, else creation when the token is in the confirmed set, else a row
error — after which the row still continues with the reference dropped.
(A database uniqueness violation on the synthesized short name is not
modelled; no verified property creates colliding short names.) -/
def resolveClusterTok (createClusters : List String) (rowNum : Nat)
    (aname : String) (acc : ResolveAcc) (p : String) : ResolveAcc :=
  match clusterExact acc.store p with
  | some c => { acc with objs := acc.objs ++ [c.shortName] }
  | none =>
    match clusterFuzzy acc.store p with
    | some c => { acc with objs := acc.objs ++ [c.shortName] }
    | none =>
      if createClusters ≠ [] && p ∈ createClusters then
        let c : ClusterRec := ⟨genClusterShort p, p⟩
        { acc with
            store := { acc.store with clusters := acc.store.clusters ++ [c] }
            objs := acc.objs ++ [c.shortName] }
      else
        { acc with errors := acc.errors ++
            ["Row " ++ natStr rowNum ++ " (" ++ aname ++
             "): unknown Cluster \"" ++ p ++
             "\" - please confirm creation in the staging view"] }

/-- The cluster-resolution pass over one row (`cluster_objs`). -/
def resolveClusters (createClusters : List String) (rowNum : Nat)
    (aname : String) (st : Store) (cell : Option String) : ResolveAcc :=
  if !isBlank cell then
    (refParts (cell.getD "")).foldl
      (resolveClusterTok createClusters rowNum aname) ⟨st, [], []⟩
  else ⟨st, [], []⟩

/-- Resolution of one funder token in `_process_dataframe`: exact name
match, else fuzzy first match on the 4-character prefix, else creation
with a synthesized collision-free code when confirmed, else a row error
— after which the row still continues with the reference dropped. -/
def resolveFunderTok (createFunders : List String) (rowNum : Nat)
    (aname : String) (acc : ResolveAcc) (p : String) : ResolveAcc :=
  match funderExact acc.store p with
  | some f => { acc with objs := acc.objs ++ [f.code] }
  | none =>
    match funderFuzzy acc.store p with
    | some f => { acc with objs := acc.objs ++ [f.code] }
    | none =>
      if createFunders ≠ [] && p ∈ createFunders then
        let code := genFunderCode acc.store (funderBase p)
        let f : FunderRec := ⟨code, p, true⟩
        { acc with
            store := { acc.store with funders := acc.store.funders ++ [f] }
            objs := acc.objs ++ [code] }
      else
        { acc with errors := acc.errors ++
            ["Row " ++ natStr rowNum ++ " (" ++ aname ++
             "): unknown Funder \"" ++ p ++
             "\" - please confirm creation in the staging view"] }

/-- The funder-resolution pass over one row (`funder_objs`). -/
def resolveFunders (createFunders : List String) (rowNum : Nat)
    (aname : String) (st : Store) (cell : Option String) : ResolveAcc :=
  if !isBlank cell then
    (refParts (cell.getD "")).foldl
      (resolveFunderTok createFunders rowNum aname) ⟨st, [], []⟩
  else ⟨st, [], []⟩

/-- The running result of `_process_dataframe`. -/
structure ProcResult where
  store : Store
  created : Nat
  updated : Nat
  skipped : Nat
  errors : List String
  deriving Repr, DecidableEq

/-- The budget coercion of `_process_dataframe`: blank gives 0 (via the
`budget = 0` rebind whose string `"0"` then parses to 0); otherwise the
cell is stripped of whitespace, commas and spaces, `''` and `'-'` give
0, anything else must parse as a float or the row errors (`none`). -/
def parseBudget (cell : Option String) : Option Rat :=
  if isBlank cell then some 0
  else
    let bs := cleanNumStr (cell.getD "")
    if bs = "" || bs = "-" then some 0
    else parseFloat? bs

/-- The disbursed-amount coercion: as the budget one, except a parse
failure degrades to 0 instead of erroring. -/
def parseDisbursed (cell : Option String) : Rat :=
  (parseBudget cell).getD 0

/-- The upsert tail of one `_process_dataframe` iteration, reached once
the status (`stat`), planned month (`pm`), budget (`tb`), disbursed
amount (`da`) and resolved references are in hand: currency resolution,
then update-in-place when the external id matches a persisted activity,
else creation (with `Activity.save`'s id generation and normalisations),
each appending exactly one audit entry; a `clean()` failure appends a
row error instead (its message elides the stringified Django message
dict). -/
def processUpsert (idx : Nat) (row : Row) (stat : StatusRec) (pm : Date)
    (tb da : Rat) (clusterObjs funderObjs : List String)
    (r : ProcResult) : ProcResult :=
  let rowNum := idx + 2
  let aname := errName row.name
  let st := r.store
  let cur := resolveCurrency st row
  let notes := if isBlank row.notes then "" else strip (row.notes.getD "")
  let existing :=
    if truthy row.activityId then
      activityById st (strip (row.activityId.getD ""))
    else none
  match existing with
  | some a =>
    if cleanCheck tb da then
      let a' := { a with
        name := row.name.getD ""
        statusName := stat.name
        plannedMonth := lastDayOf pm
        quarter := quarterOf pm
        totalBudget := tb
        disbursedAmount := da
        currencyCode := fillDefaultCurrency st
          (match cur with | some c => some c | none => a.currencyCode)
        notes := notes
        year := pm.year
        funderCodes := dedupKeepFirst funderObjs
        clusterShorts := dedupKeepFirst clusterObjs }
      { r with
          store := { st with
            activities := st.activities.map
              (fun x => if x.pk = a.pk then a' else x)
            audits := st.audits ++
              [⟨"Activity updated via upload", a'.activityId⟩] }
          updated := r.updated + 1 }
    else
      { r with errors := r.errors ++
          ["Row " ++ natStr rowNum ++ " (" ++ aname ++
           "): validation error"] }
  | none =>
    if cleanCheck tb da then
      let aid := genActivityId st pm.year
      let act : ActivityRec := {
        pk := st.nextActPk
        activityId := aid
        name := row.name.getD ""
        year := pm.year
        statusName := stat.name
        plannedMonth := lastDayOf pm
        quarter := quarterOf pm
        totalBudget := tb
        disbursedAmount := da
        currencyCode := fillDefaultCurrency st cur
        notes := notes
        funderCodes := dedupKeepFirst funderObjs
        clusterShorts := dedupKeepFirst clusterObjs }
      { r with
          store := { st with
            activities := st.activities ++ [act]
            audits := st.audits ++
              [⟨"Activity created via upload", aid⟩]
            nextActPk := st.nextActPk + 1 }
          created := r.created + 1 }
    else
      { r with errors := r.errors ++
          ["Row " ++ natStr rowNum ++ " (" ++ aname ++
           "): validation error"] }

/-- The money stage of one `_process_dataframe` iteration: the budget
must coerce (else the row errors out and is dropped), the disbursed
amount degrades to 0 on failure, then the upsert runs. -/
def processMoney (idx : Nat) (row : Row) (stat : StatusRec) (pm : Date)
    (clusterObjs funderObjs : List String) (r : ProcResult) : ProcResult :=
  match parseBudget row.budget with
  | none =>
    { r with errors := r.errors ++
        ["Row " ++ natStr (idx + 2) ++ " (" ++ errName row.name ++
         "): invalid budget amount \"" ++ (row.budget.getD "") ++ "\""] }
  | some tb =>
    processUpsert idx row stat pm tb (parseDisbursed row.disbursed)
      clusterObjs funderObjs r

/-- The body of one `_process_dataframe` iteration after the status has
resolved to `stat`: cluster then funder resolution first (their errors
do NOT drop the row), then the planned month — blank is a `required`
row error, unparseable an `invalid date format` row error, both dropping
the row only after the resolution side effects have happened. -/
def processRowBody (pd : PdParse)
    (createFunders createClusters : List String)
    (idx : Nat) (row : Row) (stat : StatusRec) (r : ProcResult) :
    ProcResult :=
  let rowNum := idx + 2
  let aname := errName row.name
  let cres := resolveClusters createClusters rowNum aname r.store row.cluster
  let fres := resolveFunders createFunders rowNum aname cres.store row.funder
  let r := { r with store := fres.store
                    errors := r.errors ++ cres.errors ++ fres.errors }
  if truthy row.planned then
    match parsePlannedMonth pd row.planned with
    | none =>
      { r with errors := r.errors ++
          ["Row " ++ natStr rowNum ++ " (" ++ aname ++
           "): invalid date format for \"" ++ (row.planned.getD "") ++ "\""] }
    | some pm => processMoney idx row stat pm cres.objs fres.objs r
  else
    { r with errors := r.errors ++
        ["Row " ++ natStr rowNum ++ " (" ++ aname ++
         "): Planned Implementation Month is required"] }

/-- One iteration of `_process_dataframe`'s row loop, in source order:
blank-row skip; decision skip; name check; status resolution; then the
row body (reference resolution, month, money, upsert). -/
def processRow (pd : PdParse) (decisions : List (String × String))
    (createFunders createClusters : List String)
    (idx : Nat) (row : Row) (r : ProcResult) : ProcResult :=
  let rowNum := idx + 2
  if isBlank row.name && isBlank row.planned && isBlank row.status &&
     isBlank row.budget && isBlank row.cluster && isBlank row.funder then
    { r with skipped := r.skipped + 1 }
  else if (decisions.lookup (natStr rowNum)).getD "create" = "skip" then
    { r with skipped := r.skipped + 1 }
  else if !truthy row.name then
    { r with errors := r.errors ++
        ["Row " ++ natStr rowNum ++ ": missing Activity Name"] }
  else
    let aname := errName row.name
    if isBlank row.status then
      match defaultStatus r.store with
      | none =>
        { r with errors := r.errors ++
            ["Row " ++ natStr rowNum ++ " (" ++ aname ++
             "): missing Implementation Status. Ask the system admin to add" ++
             " \"Not Implemented\" status and re-upload."] }
      | some stat => processRowBody pd createFunders createClusters idx row stat r
    else
      let sn := normalizeText (row.status.getD "")
      match statusByKey r.store (normalizeKey sn) with
      | none =>
        { r with errors := r.errors ++
            ["Row " ++ natStr rowNum ++ " (" ++ aname ++
             "): invalid Status \"" ++ sn ++
             "\". Ask the system admin to add this status and re-upload."] }
      | some stat => processRowBody pd createFunders createClusters idx row stat r

/-- The row loop of `_process_dataframe`, indexed like
`df.iterrows()`. -/
def processAux (pd : PdParse) (decisions : List (String × String))
    (createFunders createClusters : List String) :
    Nat → List Row → ProcResult → ProcResult
  | _, [], r => r
  | idx, row :: rows, r =>
    processAux pd decisions createFunders createClusters (idx + 1) rows
      (processRow pd decisions createFunders createClusters idx row r)

/-- `_process_dataframe(df, user, decisions, create_funders,
create_clusters)`. -/
def processDataframe (pd : PdParse) (df : DataFrame) (st : Store)
    (decisions : List (String × String))
    (createFunders createClusters : List String) : ProcResult :=
  processAux pd decisions createFunders createClusters 0 df.rows
    ⟨st, 0, 0, 0, []⟩

/-- The outcome of a confirm (commit) request. -/
structure ConfirmResult where
  store : Store
  blocked : Bool
  crashed : Bool
  keepStaged : Bool
  created : Nat
  updated : Nat
  skipped : Nat
  errors : List String
  deriving Repr, DecidableEq

/-- The years the batch-year computation sees:
`df['Planned Implementation Month'].dropna().apply(lambda x:
pd.to_datetime(x, errors='coerce').year)`, with the `NaT` years dropped
(as `Series.mode` drops them). -/
def batchYears (pd : PdParse) (df : DataFrame) : List Nat :=
  (df.rows.filterMap (fun r => r.planned)).filterMap
    (fun s => (pd s).map (fun ym => ym.1))

/-- `years.mode().iloc[0]`: among the values of maximal multiplicity,
the smallest (pandas sorts the modes); `none` on an empty series. -/
def modeMin (l : List Nat) : Option Nat :=
  (l.filter (fun y => decide (∀ z ∈ l, l.count z ≤ l.count y))).min?

/-- The hard-block message shown when the commit is refused. -/
def blockMsg : String :=
  "Upload blocked: one or more statuses are not in Activity Status. " ++
  "Ask the system admin to add the missing statuses and re-upload."

/-- The confirm branch of `upload_activities`: re-summarize the staged
file; when any status is unknown or the default status is missing, block
the whole commit before any mutation and keep the staged file and
session; otherwise run `_process_dataframe`, then create the
`UploadBatch` (year: smallest most-common pandas-parsed planned-month
year, falling back to today's year, which also replaces a falsy 0) and
the `Upload finalized` audit entry — unless the dataframe has no
`Planned Implementation Month` column, in which case the column access
raises `KeyError` after row processing: the request dies with the row
mutations persisted, no batch and no finalize entry (`crashed`), and the
`finally` block still discards the staged file and session. -/
def uploadConfirm (pd : PdParse) (df : DataFrame) (st : Store)
    (decisions : List (String × String))
    (createFunders createClusters : List String)
    (todayYear : Nat) (fileName : String) : ConfirmResult :=
  let summary := summarize pd df st
  if summary.unknownStatuses ≠ [] || summary.defaultStatusMissing then
    { store := st, blocked := true, crashed := false, keepStaged := true
      created := 0, updated := 0, skipped := 0, errors := [blockMsg] }
  else
    let p := processDataframe pd df st decisions createFunders createClusters
    if df.hasPlannedCol then
      let yv :=
        match modeMin (batchYears pd df) with
        | some y => y
        | none => todayYear
      let yv := if yv = 0 then todayYear else yv
      { store := { p.store with
          batches := p.store.batches ++ [⟨yv, fileName⟩]
          audits := p.store.audits ++ [⟨"Upload finalized", "UploadBatch object"⟩] }
        blocked := false, crashed := false, keepStaged := false
        created := p.created, updated := p.updated, skipped := p.skipped
        errors := p.errors }
    else
      { store := p.store
        blocked := false, crashed := true, keepStaged := false
        created := p.created, updated := p.updated, skipped := p.skipped
        errors := p.errors }

/-- Indexed concatenation of per-row contributions, as the summarize
loop emits them. -/
def flatIdx {α : Type _} (f : Nat → Row → List α) : Nat → List Row → List α
  | _, [] => []
  | idx, r :: rs => f idx r ++ flatIdx f (idx + 1) rs

/-- The duplicate entries one row contributes to `_summarize`, as a pure
function of the row: the row must have a truthy name and a parsed
planned month; matching activities (same case-insensitive name, same
year, overlapping listed cluster when clusters are given) are reported,
at most 3, unless the row itself just entered the updates list (a truthy
external id that matched), which suppresses its duplicate entries. -/
def rowDups (pd : PdParse) (st : Store) (idx : Nat) (row : Row) :
    List DupRec :=
  if truthy row.name then
    match rowParsedDt pd row with
    | some d =>
      let nm := row.name.getD ""
      let similar := dupMatches st nm d.year row.cluster
      if similar ≠ [] then
        if !(truthy row.activityId &&
             (rowUpd st idx row).any (fun u => u.row = idx + 2)) then
          (similar.take 3).map (mkDup (idx + 2) nm)
        else []
      else []
    | none => []
  else []

/-- The number of `Upload finalized` audit entries in an audit list. -/
def finalizeCount (l : List AuditRec) : Nat :=
  (l.filter (fun a => a.action = "Upload finalized")).length

/-! ## Concrete fixtures shared by witnesses and counterexamples -/

/-- A pandas fallback oracle that parses nothing (all properties below
that need concrete dates go through the explicit `Mon-YY` formats). -/
def pdNone : PdParse := fun _ => none

/-- A store holding a single status `Planned` and nothing else. -/
def storeP : Store :=
  { statuses := [⟨"Planned"⟩], funders := [], clusters := [], currencies := []
    activities := [], audits := [], batches := [], nextActPk := 1 }

/-- The row of the C1 failing input: a stable external id `EXT-1` that
matches no persisted activity. -/
def rowC1 : Row :=
  { name := some "Water Survey", status := some "Planned"
    planned := some "Aug-26", activityId := some "EXT-1" }

/-- The C1 failing input as a staged dataframe. -/
def dfC1 : DataFrame := ⟨true, true, [rowC1]⟩

/-- The C8 counterexample fixture: a valid row whose budget cell is the
non-blank, non-numeric string `"-"`. -/
def rowDash : Row :=
  { name := some "W", status := some "Planned", planned := some "Aug-26"
    budget := some "-" }

/-- A row whose status `Bogus` is not in the master status set. -/
def rowBogus : Row :=
  { name := some "W", status := some "Bogus", planned := some "Aug-26" }

/-- A valid row whose funder `Acme Trust` matches nothing in master
data. -/
def rowAcme : Row :=
  { name := some "W", status := some "Planned", planned := some "Aug-26"
    funder := some "Acme Trust" }

/-- A row confirming funder `Acme Trust` but carrying an unparseable
planned month. -/
def rowGarb : Row :=
  { name := some "W", status := some "Planned", planned := some "garbage"
    funder := some "Acme Trust" }

/-- A store with 8 funders and 8 clusters all matching the 4-character
prefixes of the tokens below. -/
def storeSugg : Store :=
  { statuses := [⟨"Planned"⟩]
    funders := [⟨"C0", "Acme Fund 0", true⟩, ⟨"C1", "Acme Fund 1", true⟩,
      ⟨"C2", "Acme Fund 2", true⟩, ⟨"C3", "Acme Fund 3", true⟩,
      ⟨"C4", "Acme Fund 4", true⟩, ⟨"C5", "Acme Fund 5", true⟩,
      ⟨"C6", "Acme Fund 6", true⟩, ⟨"C7", "Acme Fund 7", true⟩]
    clusters := [⟨"WASH0", "F0"⟩, ⟨"WASH1", "F1"⟩, ⟨"WASH2", "F2"⟩,
      ⟨"WASH3", "F3"⟩, ⟨"WASH4", "F4"⟩, ⟨"WASH5", "F5"⟩, ⟨"WASH6", "F6"⟩,
      ⟨"WASH7", "F7"⟩]
    currencies := [], activities := [], audits := [], batches := []
    nextActPk := 1 }

/-- A row with one unknown funder token and one unknown cluster token,
each fuzzy-matching 8 existing entities. -/
def rowSugg : Row :=
  { name := some "W", status := some "Planned", planned := some "Aug-26"
    funder := some "Acme Trust", cluster := some "WASHX" }

/-- A pandas oracle that parses exactly `Aug-26`, to August 2026. -/
def pdAug : PdParse := fun s => if s = "Aug-26" then some (2026, 8) else none

/-- A plain valid row. -/
def rowOk : Row :=
  { name := some "W", status := some "Planned", planned := some "Aug-26" }

/-- A store holding one activity that duplicates the row below by name,
year and cluster. -/
def storeDup : Store :=
  { statuses := [⟨"Planned"⟩], funders := [], clusters := [⟨"WASH", "Wash"⟩]
    currencies := []
    activities := [{ pk := 1, activityId := "Y26-000001"
                     name := "water survey", year := 2026
                     statusName := "Planned", plannedMonth := ⟨2026, 8, 31⟩
                     quarter := 3, totalBudget := 0, disbursedAmount := 0
                     currencyCode := none, notes := ""
                     funderCodes := [], clusterShorts := ["WASH"] }]
    audits := [], batches := [], nextActPk := 2 }

/-- A row that duplicates the stored activity above. -/
def rowDup : Row :=
  { name := some "Water Survey", status := some "Planned"
    planned := some "Aug-26", cluster := some "WASH" }

/-! ## Helper lemmas about the commit executor's stages -/

/-- A non-skipped row with a truthy, non-blank name and a non-blank
status resolving through the status map proceeds into the row body. -/
theorem processRow_resolves (pd : PdParse)
    (decisions : List (String × String)) (cf cc : List String)
    (idx : Nat) (row : Row) (r : ProcResult) (stat : StatusRec)
    (hnb : isBlank row.name = false)
    (hnt : truthy row.name = true)
    (hdec : (decisions.lookup (natStr (idx + 2))).getD "create" ≠ "skip")
    (hsb : isBlank row.status = false)
    (hsk : statusByKey r.store
      (normalizeKey (normalizeText (row.status.getD ""))) = some stat) :
    processRow pd decisions cf cc idx row r =
      processRowBody pd cf cc idx row stat r := by
  unfold processRow
  simp [hnb, hnt, hdec, hsb, hsk]

/-- With blank cluster and funder cells the row body runs the money
stage with no resolved references and no resolution side effects. -/
theorem processRowBody_noRefs (pd : PdParse) (cf cc : List String)
    (idx : Nat) (row : Row) (stat : StatusRec) (r : ProcResult)
    (pm : Date)
    (hc : isBlank row.cluster = true) (hf : isBlank row.funder = true)
    (hpt : truthy row.planned = true)
    (hpp : parsePlannedMonth pd row.planned = some pm) :
    processRowBody pd cf cc idx row stat r =
      processMoney idx row stat pm [] [] r := by
  unfold processRowBody resolveClusters resolveFunders
  simp [hc, hf, hpt, hpp]

/-- A row with no (truthy) external id and amounts passing `clean()`
creates one activity, with the generated id and one audit entry. -/
theorem processUpsert_create_eq (idx : Nat) (row : Row) (stat : StatusRec)
    (pm : Date) (tb da : Rat) (cObjs fObjs : List String) (r : ProcResult)
    (hid : truthy row.activityId = false)
    (hcl : cleanCheck tb da = true) :
    processUpsert idx row stat pm tb da cObjs fObjs r =
      { r with
          store := { r.store with
            activities := r.store.activities ++
              [{ pk := r.store.nextActPk
                 activityId := genActivityId r.store pm.year
                 name := row.name.getD ""
                 year := pm.year
                 statusName := stat.name
                 plannedMonth := lastDayOf pm
                 quarter := quarterOf pm
                 totalBudget := tb
                 disbursedAmount := da
                 currencyCode := fillDefaultCurrency r.store
                   (resolveCurrency r.store row)
                 notes := if isBlank row.notes then ""
                          else strip (row.notes.getD "")
                 funderCodes := dedupKeepFirst fObjs
                 clusterShorts := dedupKeepFirst cObjs }]
            audits := r.store.audits ++
              [⟨"Activity created via upload", genActivityId r.store pm.year⟩]
            nextActPk := r.store.nextActPk + 1 }
          created := r.created + 1 } := by
  unfold processUpsert
  simp [hid, hcl]

/-- The money stage on a row whose budget coerces to `tb`. -/
theorem processMoney_some (idx : Nat) (row : Row) (stat : StatusRec)
    (pm : Date) (cObjs fObjs : List String) (r : ProcResult) (tb : Rat)
    (h : parseBudget row.budget = some tb) :
    processMoney idx row stat pm cObjs fObjs r =
      processUpsert idx row stat pm tb (parseDisbursed row.disbursed)
        cObjs fObjs r := by
  unfold processMoney
  rw [h]

/-- The money stage on a row whose budget fails to coerce: the row is
dropped with an `invalid budget amount` error. -/
theorem processMoney_none (idx : Nat) (row : Row) (stat : StatusRec)
    (pm : Date) (cObjs fObjs : List String) (r : ProcResult)
    (h : parseBudget row.budget = none) :
    processMoney idx row stat pm cObjs fObjs r =
      { r with errors := r.errors ++
          ["Row " ++ natStr (idx + 2) ++ " (" ++ errName row.name ++
           "): invalid budget amount \"" ++ (row.budget.getD "") ++ "\""] } := by
  unfold processMoney
  rw [h]

/-- The row body with a truthy, parseable planned month: reference
resolution happens first, then the money stage runs on its results. -/
theorem processRowBody_month_ok (pd : PdParse) (cf cc : List String)
    (idx : Nat) (row : Row) (stat : StatusRec) (r : ProcResult) (pm : Date)
    (hpt : truthy row.planned = true)
    (hpp : parsePlannedMonth pd row.planned = some pm) :
    processRowBody pd cf cc idx row stat r =
      (let cres := resolveClusters cc (idx + 2) (errName row.name)
        r.store row.cluster
       let fres := resolveFunders cf (idx + 2) (errName row.name)
        cres.store row.funder
       processMoney idx row stat pm cres.objs fres.objs
        { r with store := fres.store
                 errors := r.errors ++ cres.errors ++ fres.errors }) := by
  unfold processRowBody
  simp [hpt, hpp]

/-- The row body with a truthy but unparseable planned month: reference
resolution (including confirmed creations) happens first, and only then
is the row dropped with an `invalid date format` error. -/
theorem processRowBody_month_invalid (pd : PdParse) (cf cc : List String)
    (idx : Nat) (row : Row) (stat : StatusRec) (r : ProcResult)
    (hpt : truthy row.planned = true)
    (hpp : parsePlannedMonth pd row.planned = none) :
    processRowBody pd cf cc idx row stat r =
      (let cres := resolveClusters cc (idx + 2) (errName row.name)
        r.store row.cluster
       let fres := resolveFunders cf (idx + 2) (errName row.name)
        cres.store row.funder
       { r with store := fres.store
                errors := (r.errors ++ cres.errors ++ fres.errors) ++
                  ["Row " ++ natStr (idx + 2) ++ " (" ++ errName row.name ++
                   "): invalid date format for \"" ++
                   (row.planned.getD "") ++ "\""] }) := by
  unfold processRowBody
  simp [hpt, hpp]

/-- The row body with a falsy planned month cell: reference resolution
(including confirmed creations) happens first, and only then is the row
dropped with a `required` error. -/
theorem processRowBody_month_missing (pd : PdParse) (cf cc : List String)
    (idx : Nat) (row : Row) (stat : StatusRec) (r : ProcResult)
    (hpt : truthy row.planned = false) :
    processRowBody pd cf cc idx row stat r =
      (let cres := resolveClusters cc (idx + 2) (errName row.name)
        r.store row.cluster
       let fres := resolveFunders cf (idx + 2) (errName row.name)
        cres.store row.funder
       { r with store := fres.store
                errors := (r.errors ++ cres.errors ++ fres.errors) ++
                  ["Row " ++ natStr (idx + 2) ++ " (" ++ errName row.name ++
                   "): Planned Implementation Month is required"] }) := by
  unfold processRowBody
  simp [hpt]

/-- Resolving a non-blank single-token reference cell is resolving that
token. -/
theorem resolveFunders_single (cf : List String) (rowNum : Nat)
    (aname : String) (st : Store) (cell : Option String) (p : String)
    (hb : isBlank cell = false) (hp : refParts (cell.getD "") = [p]) :
    resolveFunders cf rowNum aname st cell =
      resolveFunderTok cf rowNum aname ⟨st, [], []⟩ p := by
  unfold resolveFunders
  simp [hb, hp]

/-- Resolving a blank funder cell touches nothing. -/
theorem resolveFunders_blank (cf : List String) (rowNum : Nat)
    (aname : String) (st : Store) (cell : Option String)
    (hb : isBlank cell = true) :
    resolveFunders cf rowNum aname st cell = ⟨st, [], []⟩ := by
  unfold resolveFunders
  simp [hb]

/-- Resolving a blank cluster cell touches nothing. -/
theorem resolveClusters_blank (cc : List String) (rowNum : Nat)
    (aname : String) (st : Store) (cell : Option String)
    (hb : isBlank cell = true) :
    resolveClusters cc rowNum aname st cell = ⟨st, [], []⟩ := by
  unfold resolveClusters
  simp [hb]

/-- Resolving a non-blank single-token cluster cell is resolving that
token. -/
theorem resolveClusters_single (cc : List String) (rowNum : Nat)
    (aname : String) (st : Store) (cell : Option String) (p : String)
    (hb : isBlank cell = false) (hp : refParts (cell.getD "") = [p]) :
    resolveClusters cc rowNum aname st cell =
      resolveClusterTok cc rowNum aname ⟨st, [], []⟩ p := by
  unfold resolveClusters
  simp [hb, hp]

/-- A funder token with no exact match, no fuzzy match and no creation
confirmation appends a row error and resolves to nothing — the store is
untouched and the row is NOT aborted here. -/
theorem resolveFunderTok_unknown (cf : List String) (rowNum : Nat)
    (aname : String) (acc : ResolveAcc) (p : String)
    (he : funderExact acc.store p = none)
    (hf : funderFuzzy acc.store p = none) (hc : p ∉ cf) :
    resolveFunderTok cf rowNum aname acc p =
      { acc with errors := acc.errors ++
          ["Row " ++ natStr rowNum ++ " (" ++ aname ++
           "): unknown Funder \"" ++ p ++
           "\" - please confirm creation in the staging view"] } := by
  unfold resolveFunderTok
  rw [he, hf]
  simp [hc]

/-- A funder token with no exact match but a fuzzy 4-character-prefix
match silently resolves to the first such funder, with no error. -/
theorem resolveFunderTok_fuzzy (cf : List String) (rowNum : Nat)
    (aname : String) (acc : ResolveAcc) (p : String) (f : FunderRec)
    (he : funderExact acc.store p = none)
    (hf : funderFuzzy acc.store p = some f) :
    resolveFunderTok cf rowNum aname acc p =
      { acc with objs := acc.objs ++ [f.code] } := by
  unfold resolveFunderTok
  rw [he, hf]

/-- A confirmed funder token with no exact and no fuzzy match creates a
funder named exactly by the token, with the synthesized code. -/
theorem resolveFunderTok_create (cf : List String) (rowNum : Nat)
    (aname : String) (acc : ResolveAcc) (p : String)
    (he : funderExact acc.store p = none)
    (hf : funderFuzzy acc.store p = none) (hc : p ∈ cf) :
    resolveFunderTok cf rowNum aname acc p =
      { acc with
          store := { acc.store with funders := acc.store.funders ++
            [⟨genFunderCode acc.store (funderBase p), p, true⟩] }
          objs := acc.objs ++ [genFunderCode acc.store (funderBase p)] } := by
  unfold resolveFunderTok
  rw [he, hf]
  simp [hc, List.ne_nil_of_mem hc]

/-- A cluster token with no exact match, no fuzzy match and no creation
confirmation appends a row error and resolves to nothing — the store is
untouched and the row is NOT aborted here. -/
theorem resolveClusterTok_unknown (cc : List String) (rowNum : Nat)
    (aname : String) (acc : ResolveAcc) (p : String)
    (he : clusterExact acc.store p = none)
    (hf : clusterFuzzy acc.store p = none) (hc : p ∉ cc) :
    resolveClusterTok cc rowNum aname acc p =
      { acc with errors := acc.errors ++
          ["Row " ++ natStr rowNum ++ " (" ++ aname ++
           "): unknown Cluster \"" ++ p ++
           "\" - please confirm creation in the staging view"] } := by
  unfold resolveClusterTok
  rw [he, hf]
  simp [hc]

/-! ## C5 -/

/-- C5: every successfully parsed planned-month value is the date whose
year and month come from the parse and whose day is the number of days
in that month for that year; in particular `"Aug-26"` parses to
2026-08-31 and `"Feb-24"` parses to 2024-02-29 (leap year). -/
theorem C5_planned_month_last_day (pd : PdParse) (v : Option String)
    (d : Date) (h : parsePlannedMonth pd v = some d) :
    d.day = daysInMonth d.year d.month ∧
    parsePlannedMonth pd (some "Aug-26") = some ⟨2026, 8, 31⟩ ∧
    parsePlannedMonth pd (some "Feb-24") = some ⟨2024, 2, 29⟩ := by
  refine ⟨?_, rfl, rfl⟩
  unfold parsePlannedMonth at h
  cases v with
  | none => exact absurd h (by simp)
  | some s =>
    simp only [] at h
    split at h
    · exact absurd h (by simp)
    · split at h
      · rename_i yr mon heq
        cases h
        rfl
      · split at h
        · rename_i yr mon heq
          cases h
          rfl
        · exact absurd h (by simp)

/-- Closed witness for C5 at a concrete parse. -/
theorem C5_witness :
    parsePlannedMonth pdNone (some "Jun-25") = some ⟨2025, 6, 30⟩ ∧
    (⟨2025, 6, 30⟩ : Date).day = daysInMonth 2025 6 := by
  refine ⟨rfl, ?_⟩
  exact (C5_planned_month_last_day pdNone (some "Jun-25") ⟨2025, 6, 30⟩ rfl).1

/-! ## C1 -/

/-- C1 (code bug evidence): committing the same one-row file twice, each
row carrying the stable external id `EXT-1`, does NOT make the second
commit report an update — the create path never stores the incoming id
(`Activity.save` generates `Y26-000001` instead), so the second commit
finds no activity with id `EXT-1`, reports another creation, and leaves
two activities with the same name in the store. -/
theorem C1_second_commit_recreates :
    (uploadConfirm pdNone dfC1 storeP [] [] [] 2026 "a.csv").created = 1 ∧
    (uploadConfirm pdNone dfC1 storeP [] [] [] 2026 "a.csv").updated = 0 ∧
    (uploadConfirm pdNone dfC1
        (uploadConfirm pdNone dfC1 storeP [] [] [] 2026 "a.csv").store
        [] [] [] 2026 "a.csv").created = 1 ∧
    (uploadConfirm pdNone dfC1
        (uploadConfirm pdNone dfC1 storeP [] [] [] 2026 "a.csv").store
        [] [] [] 2026 "a.csv").updated = 0 ∧
    ((uploadConfirm pdNone dfC1
        (uploadConfirm pdNone dfC1 storeP [] [] [] 2026 "a.csv").store
        [] [] [] 2026 "a.csv").store.activities.map (fun a => a.name)) =
      ["Water Survey", "Water Survey"] ∧
    ((uploadConfirm pdNone dfC1 storeP [] [] [] 2026 "a.csv").store.activities.map
        (fun a => a.activityId)) = ["Y26-000001"] := by
  decide

/-! ## C8 -/

/-- C8 counterexample: the claim says every non-blank, non-numeric
budget value produces a row error and drops the row, but the code maps
the cleaned values `''` and `'-'` to 0 silently: the budget cell `"-"`
is non-blank and not a number, yet the row commits with no error and a
created activity whose budget is 0. -/
theorem C8_dash_budget_no_error :
    isBlank (some "-") = false ∧ parseFloat? "-" = none ∧
    (processDataframe pdNone ⟨true, false, [rowDash]⟩ storeP [] [] []).errors
      = [] ∧
    (processDataframe pdNone ⟨true, false, [rowDash]⟩ storeP [] [] []).created
      = 1 ∧
    ((processDataframe pdNone ⟨true, false, [rowDash]⟩ storeP [] [] []).store.activities.map
      (fun a => a.totalBudget)) = [0] := by
  decide

/-- C8 (amended): a row with blank budget and blank disbursed amount and
valid name, status and planned month is created with both amounts 0 and
no row error; a non-blank budget that is still non-numeric after the
comma/space cleanup — other than the cleaned values `''` and `'-'`,
which silently degrade to 0 — produces a row error and drops the row;
and a non-blank, non-numeric disbursed amount degrades to 0 with no
error. -/
theorem C8_amount_coercion (pd : PdParse) (st : Store) (stat : StatusRec)
    (nm sn : String) (pcell : Option String) (pm : Date)
    (b d : Option String)
    (hnb : isBlank (some nm) = false) (hnt : nm ≠ "")
    (hsb : isBlank (some sn) = false)
    (hsk : statusByKey st (normalizeKey (normalizeText sn)) = some stat)
    (hpt : truthy pcell = true)
    (hpp : parsePlannedMonth pd pcell = some pm) :
    let row : Row := { name := some nm, status := some sn, planned := pcell
                       budget := b, disbursed := d }
    let res := processDataframe pd ⟨true, false, [row]⟩ st [] [] []
    (isBlank b = true → isBlank d = true →
      res.errors = [] ∧ res.created = 1 ∧
      ∃ act, res.store.activities = st.activities ++ [act] ∧
        act.totalBudget = 0 ∧ act.disbursedAmount = 0) ∧
    (isBlank b = false → cleanNumStr (b.getD "") ≠ "" →
     cleanNumStr (b.getD "") ≠ "-" →
     parseFloat? (cleanNumStr (b.getD "")) = none →
      res.created = 0 ∧ res.updated = 0 ∧ res.store = st ∧
      res.errors = ["Row 2 (" ++ errName (some nm) ++
        "): invalid budget amount \"" ++ b.getD "" ++ "\""]) ∧
    (isBlank b = true → isBlank d = false →
     parseFloat? (cleanNumStr (d.getD "")) = none →
      res.errors = [] ∧ res.created = 1 ∧
      ∃ act, res.store.activities = st.activities ++ [act] ∧
        act.disbursedAmount = 0) := by
  intro row res
  have hframe : res = processRow pd [] [] [] 0 row ⟨st, 0, 0, 0, []⟩ := by
    simp [res, processDataframe, processAux]
  have hred : processRow pd [] [] [] 0 row ⟨st, 0, 0, 0, []⟩ =
      processRowBody pd [] [] 0 row stat ⟨st, 0, 0, 0, []⟩ := by
    apply processRow_resolves
    · exact hnb
    · simp [row, truthy, hnt]
    · simp
    · exact hsb
    · exact hsk
  have hbody : processRowBody pd [] [] 0 row stat ⟨st, 0, 0, 0, []⟩ =
      processMoney 0 row stat pm [] [] ⟨st, 0, 0, 0, []⟩ :=
    processRowBody_noRefs pd [] [] 0 row stat _ pm rfl rfl hpt hpp
  refine ⟨?_, ?_, ?_⟩
  · intro hb hd
    have hpb : parseBudget row.budget = some 0 := by
      simp [row, parseBudget, hb]
    have hpd : parseDisbursed row.disbursed = 0 := by
      simp [row, parseDisbursed, parseBudget, hd]
    have := processUpsert_create_eq 0 row stat pm 0 0 [] [] ⟨st, 0, 0, 0, []⟩
      rfl (by decide)
    rw [hframe, hred, hbody, processMoney_some _ _ _ _ _ _ _ _ hpb, hpd, this]
    exact ⟨rfl, rfl, _, rfl, rfl, rfl⟩
  · intro hb h1 h2 h3
    have hpb : parseBudget row.budget = none := by
      simp [row, parseBudget, hb, h1, h2, h3]
    rw [hframe, hred, hbody, processMoney_none _ _ _ _ _ _ _ hpb]
    exact ⟨rfl, rfl, rfl, rfl⟩
  · intro hb hd hdp
    have hpb : parseBudget row.budget = some 0 := by
      simp [row, parseBudget, hb]
    have hpd : parseDisbursed row.disbursed = 0 := by
      unfold parseDisbursed parseBudget
      simp [row, hd, hdp]
      try split <;> rfl
    have := processUpsert_create_eq 0 row stat pm 0 0 [] [] ⟨st, 0, 0, 0, []⟩
      rfl (by decide)
    rw [hframe, hred, hbody, processMoney_some _ _ _ _ _ _ _ _ hpb, hpd, this]
    exact ⟨rfl, rfl, _, rfl, rfl⟩

/-- Closed witness for C8 at concrete inputs: blank budget and blank
disbursed give a created activity with both amounts 0 and no errors. -/
theorem C8_witness :
    isBlank (none : Option String) = true ∧
    ((processDataframe pdNone ⟨true, false,
        [{ name := some "W", status := some "Planned"
           planned := some "Aug-26" }]⟩ storeP [] [] []).errors = [] ∧
     (processDataframe pdNone ⟨true, false,
        [{ name := some "W", status := some "Planned"
           planned := some "Aug-26" }]⟩ storeP [] [] []).created = 1 ∧
     ∃ act, (processDataframe pdNone ⟨true, false,
        [{ name := some "W", status := some "Planned"
           planned := some "Aug-26" }]⟩ storeP [] [] []).store.activities =
          storeP.activities ++ [act] ∧
        act.totalBudget = 0 ∧ act.disbursedAmount = 0) := by
  refine ⟨rfl, ?_⟩
  exact (C8_amount_coercion pdNone storeP ⟨"Planned"⟩ "W" "Planned"
    (some "Aug-26") ⟨2026, 8, 31⟩ none none (by decide) (by decide)
    (by decide) (by decide) (by decide) (by decide)).1 rfl rfl

/-! ## C2 -/

/-- A projection preserved by each step of a fold is preserved by the
whole fold. -/
theorem foldl_field_eq {α β γ : Type _} (f : α → γ) (g : α → β → α)
    (h : ∀ a b, f (g a b) = f a) :
    ∀ (l : List β) (a : α), f (l.foldl g a) = f a := by
  intro l
  induction l with
  | nil => intro a; rfl
  | cons x xs ih =>
    intro a
    rw [List.foldl_cons, ih, h]

/-- The numeric-sum step never touches the missing-default flag. -/
theorem dsm_summNums (row : Row) (acc : SummAcc) :
    (summNums row acc).defaultStatusMissing = acc.defaultStatusMissing := by
  unfold summNums
  try simp only []
  repeat' split
  all_goals rfl

/-- The per-token cluster step never touches the missing-default flag. -/
theorem dsm_summClusterTok (st : Store) (acc : SummAcc) (p : String) :
    (summClusterTok st acc p).defaultStatusMissing =
      acc.defaultStatusMissing := by
  unfold summClusterTok
  try simp only []
  repeat' split
  all_goals rfl

/-- The cluster step never touches the missing-default flag. -/
theorem dsm_summClusters (st : Store) (row : Row) (acc : SummAcc) :
    (summClusters st row acc).defaultStatusMissing =
      acc.defaultStatusMissing := by
  unfold summClusters
  try simp only []
  repeat' split
  all_goals first
    | rfl
    | exact foldl_field_eq (fun a => a.defaultStatusMissing)
        (summClusterTok st) (dsm_summClusterTok st) _ _

/-- The per-token funder step never touches the missing-default flag. -/
theorem dsm_summFunderTok (st : Store) (acc : SummAcc) (p : String) :
    (summFunderTok st acc p).defaultStatusMissing =
      acc.defaultStatusMissing := by
  unfold summFunderTok
  try simp only []
  repeat' split
  all_goals rfl

/-- The funder step never touches the missing-default flag. -/
theorem dsm_summFunders (st : Store) (row : Row) (acc : SummAcc) :
    (summFunders st row acc).defaultStatusMissing =
      acc.defaultStatusMissing := by
  unfold summFunders
  try simp only []
  repeat' split
  all_goals first
    | rfl
    | exact foldl_field_eq (fun a => a.defaultStatusMissing)
        (summFunderTok st) (dsm_summFunderTok st) _ _

/-- The invalid-date step never touches the missing-default flag. -/
theorem dsm_summInvalid (pd : PdParse) (row : Row) (acc : SummAcc) :
    (summInvalid pd row acc).defaultStatusMissing =
      acc.defaultStatusMissing := by
  unfold summInvalid
  try simp only []
  repeat' split
  all_goals rfl

/-- The update step never touches the missing-default flag. -/
theorem dsm_summUpdates (st : Store) (idx : Nat) (row : Row)
    (acc : SummAcc) :
    (summUpdates st idx row acc).defaultStatusMissing =
      acc.defaultStatusMissing := rfl

/-- The duplicate step never touches the missing-default flag. -/
theorem dsm_summDups (pd : PdParse) (st : Store) (idx : Nat) (row : Row)
    (acc : SummAcc) :
    (summDups pd st idx row acc).defaultStatusMissing =
      acc.defaultStatusMissing := by
  unfold summDups
  try simp only []
  repeat' split
  all_goals rfl

/-- The status step never clears the missing-default flag. -/
theorem dsm_summStatus_mono (st : Store) (row : Row) (acc : SummAcc)
    (h : acc.defaultStatusMissing = true) :
    (summStatus st row acc).defaultStatusMissing = true := by
  unfold summStatus
  try simp only []
  repeat' split
  all_goals first | rfl | exact h

/-- A blank status with no default sets the missing-default flag. -/
theorem dsm_summStatus_set (st : Store) (row : Row) (acc : SummAcc)
    (hb : isBlank row.status = true) (hd : defaultStatus st = none) :
    (summStatus st row acc).defaultStatusMissing = true := by
  unfold summStatus
  simp [hb, hd]

/-- One summarize iteration never clears the missing-default flag. -/
theorem dsm_summStep_mono (pd : PdParse) (st : Store) (idx : Nat)
    (row : Row) (acc : SummAcc) (h : acc.defaultStatusMissing = true) :
    (summStep pd st idx row acc).defaultStatusMissing = true := by
  unfold summStep
  rw [dsm_summDups, dsm_summUpdates, dsm_summInvalid]
  refine dsm_summStatus_mono st row _ ?_
  rw [dsm_summFunders, dsm_summClusters, dsm_summNums]
  exact h

/-- A row with blank status sets the missing-default flag when no
default status exists. -/
theorem dsm_summStep_set (pd : PdParse) (st : Store) (idx : Nat)
    (row : Row) (acc : SummAcc) (hb : isBlank row.status = true)
    (hd : defaultStatus st = none) :
    (summStep pd st idx row acc).defaultStatusMissing = true := by
  unfold summStep
  rw [dsm_summDups, dsm_summUpdates, dsm_summInvalid]
  exact dsm_summStatus_set st row _ hb hd

/-- The summarize loop never clears the missing-default flag. -/
theorem dsm_summAux_mono (pd : PdParse) (st : Store) :
    ∀ (rows : List Row) (idx : Nat) (acc : SummAcc),
      acc.defaultStatusMissing = true →
      (summAux pd st idx rows acc).defaultStatusMissing = true := by
  intro rows
  induction rows with
  | nil => intro idx acc h; exact h
  | cons x xs ih =>
    intro idx acc h
    exact ih (idx + 1) _ (dsm_summStep_mono pd st idx x acc h)

/-- The summarize loop flags the missing default whenever some row has a
blank status and no default status exists. -/
theorem dsm_summAux_blank (pd : PdParse) (st : Store)
    (hd : defaultStatus st = none) :
    ∀ (rows : List Row) (idx : Nat) (acc : SummAcc) (r : Row),
      r ∈ rows → isBlank r.status = true →
      (summAux pd st idx rows acc).defaultStatusMissing = true := by
  intro rows
  induction rows with
  | nil => intro idx acc r hr; cases hr
  | cons x xs ih =>
    intro idx acc r hr hb
    cases hr with
    | head =>
      exact dsm_summAux_mono pd st xs (idx + 1) _
        (dsm_summStep_set pd st idx x acc hb hd)
    | tail _ hmem => exact ih (idx + 1) _ r hmem hb

/-- `_summarize` reports the missing default whenever some row has a
blank status and no default status exists in master data. -/
theorem summarize_dsm (pd : PdParse) (df : DataFrame) (st : Store)
    (hd : defaultStatus st = none) (r : Row) (hr : r ∈ df.rows)
    (hb : isBlank r.status = true) :
    (summarize pd df st).defaultStatusMissing = true :=
  dsm_summAux_blank pd st hd df.rows 0 {} r hr hb

/-- C2: when the recomputed Summary has any unknown status, or some row
has a blank status while no default status exists in master data, the
whole commit is refused before any persistent-store mutation — the store
is returned unchanged (zero activities created or updated, no master
entities, no audit entries, no batch), zero counts are reported
regardless of the Decision Set, and the staged file and session are
kept. -/
theorem C2_hard_block (pd : PdParse) (df : DataFrame) (st : Store)
    (ds : List (String × String)) (cf cc : List String) (ty : Nat)
    (fn : String)
    (h : (summarize pd df st).unknownStatuses ≠ [] ∨
         (defaultStatus st = none ∧ ∃ r ∈ df.rows, isBlank r.status = true)) :
    uploadConfirm pd df st ds cf cc ty fn =
      { store := st, blocked := true, crashed := false, keepStaged := true
        created := 0, updated := 0, skipped := 0, errors := [blockMsg] } := by
  have hcond : (decide ((summarize pd df st).unknownStatuses ≠ []) ||
      (summarize pd df st).defaultStatusMissing) = true := by
    rcases h with h | ⟨hd, r, hr, hb⟩
    · simp [h]
    · rw [summarize_dsm pd df st hd r hr hb]
      simp
  unfold uploadConfirm
  simp only [hcond]
  rfl

/-- Closed witness for C2: a file whose only status is `Bogus` (not in
master data) is hard-blocked with the store unchanged. -/
theorem C2_witness :
    ((summarize pdNone ⟨true, false, [rowBogus]⟩ storeP).unknownStatuses ≠ [] ∨
     (defaultStatus storeP = none ∧
      ∃ r ∈ (⟨true, false, [rowBogus]⟩ : DataFrame).rows,
        isBlank r.status = true)) ∧
    uploadConfirm pdNone ⟨true, false, [rowBogus]⟩ storeP
        [("2", "create")] [] [] 2026 "f.csv" =
      { store := storeP, blocked := true, crashed := false
        keepStaged := true, created := 0, updated := 0, skipped := 0
        errors := [blockMsg] } := by
  refine ⟨Or.inl (by decide), ?_⟩
  exact C2_hard_block pdNone ⟨true, false, [rowBogus]⟩ storeP
    [("2", "create")] [] [] 2026 "f.csv" (Or.inl (by decide))

/-! ## C3 -/

/-- C3 counterexample: with empty master funders and no confirmation,
the unknown funder `Acme Trust` appends a row error — but the row is NOT
dropped: the claim says no Activity is created for that row, yet the
commit creates one (with no funder attached). -/
theorem C3_row_not_dropped :
    (processDataframe pdNone ⟨true, false, [rowAcme]⟩ storeP [] [] []).errors
      = ["Row 2 (W): unknown Funder \"Acme Trust\" - please confirm creation in the staging view"] ∧
    (processDataframe pdNone ⟨true, false, [rowAcme]⟩ storeP [] [] []).created
      = 1 ∧
    ((processDataframe pdNone ⟨true, false, [rowAcme]⟩ storeP [] [] []).store.activities.map
      (fun a => (a.name, a.funderCodes))) = [("W", [])] := by
  decide

/-- C3 (amended): at commit, a funder or cluster token with no exact
case-insensitive match, no fuzzy first-4-characters match, and no
creation confirmation appends a row-scoped error but does NOT drop the
row: the Activity is still created, merely without that reference and
with no master entity created; and a token with no exact match but a
fuzzy match is silently resolved to the first fuzzy-matching entity with
no error at all. -/
theorem C3_unresolved_reference (pd : PdParse) (st : Store)
    (stat : StatusRec) (nm sn : String) (pcell : Option String) (pm : Date)
    (pf pc : String) (cf cc : List String)
    (hnb : isBlank (some nm) = false) (hnt : nm ≠ "")
    (hsb : isBlank (some sn) = false)
    (hsk : statusByKey st (normalizeKey (normalizeText sn)) = some stat)
    (hpt : truthy pcell = true)
    (hpp : parsePlannedMonth pd pcell = some pm) :
    (isBlank (some pf) = false → refParts pf = [pf] →
     funderExact st pf = none → funderFuzzy st pf = none → pf ∉ cf →
      let row : Row := { name := some nm, status := some sn
                         planned := pcell, funder := some pf }
      let res := processDataframe pd ⟨true, false, [row]⟩ st [] cf cc
      res.errors = ["Row " ++ natStr 2 ++ " (" ++ errName (some nm) ++
        "): unknown Funder \"" ++ pf ++
        "\" - please confirm creation in the staging view"] ∧
      res.created = 1 ∧ res.store.funders = st.funders ∧
      ∃ act, res.store.activities = st.activities ++ [act] ∧
        act.funderCodes = []) ∧
    (isBlank (some pc) = false → refParts pc = [pc] →
     clusterExact st pc = none → clusterFuzzy st pc = none → pc ∉ cc →
      let row : Row := { name := some nm, status := some sn
                         planned := pcell, cluster := some pc }
      let res := processDataframe pd ⟨true, false, [row]⟩ st [] cf cc
      res.errors = ["Row " ++ natStr 2 ++ " (" ++ errName (some nm) ++
        "): unknown Cluster \"" ++ pc ++
        "\" - please confirm creation in the staging view"] ∧
      res.created = 1 ∧ res.store.clusters = st.clusters ∧
      ∃ act, res.store.activities = st.activities ++ [act] ∧
        act.clusterShorts = []) ∧
    (∀ f : FunderRec, isBlank (some pf) = false → refParts pf = [pf] →
     funderExact st pf = none → funderFuzzy st pf = some f →
      let row : Row := { name := some nm, status := some sn
                         planned := pcell, funder := some pf }
      let res := processDataframe pd ⟨true, false, [row]⟩ st [] cf cc
      res.errors = [] ∧ res.created = 1 ∧ res.store.funders = st.funders ∧
      ∃ act, res.store.activities = st.activities ++ [act] ∧
        act.funderCodes = [f.code]) := by
  refine ⟨?_, ?_, ?_⟩
  · intro hb hrp he hf hc row res
    have hframe : res = processRow pd [] cf cc 0 row ⟨st, 0, 0, 0, []⟩ := by
      simp [res, processDataframe, processAux]
    have hpb : parseBudget row.budget = some 0 := rfl
    have hpd : parseDisbursed row.disbursed = 0 := rfl
    have hid : truthy row.activityId = false := rfl
    rw [hframe,
      processRow_resolves pd [] cf cc 0 row _ stat hnb
        (by simp [row, truthy, hnt]) (by simp) hsb hsk,
      processRowBody_month_ok pd cf cc 0 row stat _ pm hpt hpp]
    simp only [resolveClusters_blank cc 2 (errName row.name) st none rfl,
      resolveFunders_single cf 2 (errName row.name) st (some pf) pf hb hrp,
      resolveFunderTok_unknown cf 2 (errName row.name) ⟨st, [], []⟩ pf he hf hc]
    rw [processMoney_some _ _ _ _ _ _ _ _ hpb, hpd,
      processUpsert_create_eq _ _ _ _ _ _ _ _ _ hid (by decide)]
    refine ⟨by simp, rfl, rfl, ?_⟩
    exact ⟨_, rfl, rfl⟩
  · intro hb hrp he hf hc row res
    have hframe : res = processRow pd [] cf cc 0 row ⟨st, 0, 0, 0, []⟩ := by
      simp [res, processDataframe, processAux]
    have hpb : parseBudget row.budget = some 0 := rfl
    have hpd : parseDisbursed row.disbursed = 0 := rfl
    have hid : truthy row.activityId = false := rfl
    rw [hframe,
      processRow_resolves pd [] cf cc 0 row _ stat hnb
        (by simp [row, truthy, hnt]) (by simp) hsb hsk,
      processRowBody_month_ok pd cf cc 0 row stat _ pm hpt hpp]
    simp only [
      resolveClusters_single cc 2 (errName row.name) st (some pc) pc hb hrp,
      resolveClusterTok_unknown cc 2 (errName row.name) ⟨st, [], []⟩ pc he hf hc,
      resolveFunders_blank cf 2 (errName row.name) st none rfl]
    rw [processMoney_some _ _ _ _ _ _ _ _ hpb, hpd,
      processUpsert_create_eq _ _ _ _ _ _ _ _ _ hid (by decide)]
    refine ⟨by simp, rfl, rfl, ?_⟩
    exact ⟨_, rfl, rfl⟩
  · intro f hb hrp he hf row res
    have hframe : res = processRow pd [] cf cc 0 row ⟨st, 0, 0, 0, []⟩ := by
      simp [res, processDataframe, processAux]
    have hpb : parseBudget row.budget = some 0 := rfl
    have hpd : parseDisbursed row.disbursed = 0 := rfl
    have hid : truthy row.activityId = false := rfl
    rw [hframe,
      processRow_resolves pd [] cf cc 0 row _ stat hnb
        (by simp [row, truthy, hnt]) (by simp) hsb hsk,
      processRowBody_month_ok pd cf cc 0 row stat _ pm hpt hpp]
    simp only [resolveClusters_blank cc 2 (errName row.name) st none rfl,
      resolveFunders_single cf 2 (errName row.name) st (some pf) pf hb hrp,
      resolveFunderTok_fuzzy cf 2 (errName row.name) ⟨st, [], []⟩ pf f he hf]
    rw [processMoney_some _ _ _ _ _ _ _ _ hpb, hpd,
      processUpsert_create_eq _ _ _ _ _ _ _ _ _ hid (by decide)]
    refine ⟨by simp, rfl, rfl, ?_⟩
    refine ⟨_, rfl, ?_⟩
    simp [dedupKeepFirst, insertNew]

/-- Closed witness for C3 at the concrete unknown-funder input. -/
theorem C3_witness :
    (isBlank (some "Acme Trust") = false ∧ refParts "Acme Trust" = ["Acme Trust"] ∧
     funderExact storeP "Acme Trust" = none ∧
     funderFuzzy storeP "Acme Trust" = none) ∧
    ((processDataframe pdNone ⟨true, false,
        [{ name := some "W", status := some "Planned"
           planned := some "Aug-26", funder := some "Acme Trust" }]⟩
        storeP [] [] []).errors =
      ["Row " ++ natStr 2 ++ " (" ++ errName (some "W") ++
       "): unknown Funder \"Acme Trust\" - please confirm creation in the staging view"] ∧
     (processDataframe pdNone ⟨true, false,
        [{ name := some "W", status := some "Planned"
           planned := some "Aug-26", funder := some "Acme Trust" }]⟩
        storeP [] [] []).created = 1 ∧
     (processDataframe pdNone ⟨true, false,
        [{ name := some "W", status := some "Planned"
           planned := some "Aug-26", funder := some "Acme Trust" }]⟩
        storeP [] [] []).store.funders = storeP.funders ∧
     ∃ act, (processDataframe pdNone ⟨true, false,
        [{ name := some "W", status := some "Planned"
           planned := some "Aug-26", funder := some "Acme Trust" }]⟩
        storeP [] [] []).store.activities = storeP.activities ++ [act] ∧
       act.funderCodes = []) := by
  refine ⟨⟨by decide, by decide, by decide, by decide⟩, ?_⟩
  exact (C3_unresolved_reference pdNone storeP ⟨"Planned"⟩ "W" "Planned"
    (some "Aug-26") ⟨2026, 8, 31⟩ "Acme Trust" "X" [] []
    (by decide) (by decide) (by decide) (by decide) (by decide)
    (by decide)).1 (by decide) (by decide) (by decide) (by decide)
    (by decide)

/-! ## C4 -/

/-- C4 counterexample: the claim says required-month validation precedes
reference resolution, so a row with an unparseable month creates no new
funder; but committing a row with month `garbage` and confirmed funder
`Acme Trust` creates the funder in the store even though the row is then
dropped with the date error and no Activity. -/
theorem C4_funder_created_despite_bad_month :
    (processDataframe pdNone ⟨true, false, [rowGarb]⟩ storeP []
      ["Acme Trust"] []).store.funders =
        [⟨"ACMETR", "Acme Trust", true⟩] ∧
    (processDataframe pdNone ⟨true, false, [rowGarb]⟩ storeP []
      ["Acme Trust"] []).store.activities = [] ∧
    (processDataframe pdNone ⟨true, false, [rowGarb]⟩ storeP []
      ["Acme Trust"] []).created = 0 ∧
    (processDataframe pdNone ⟨true, false, [rowGarb]⟩ storeP []
      ["Acme Trust"] []).errors =
      ["Row 2 (W): invalid date format for \"garbage\""] := by
  decide

/-- C4 (amended): at commit, reference resolution precedes
required-month validation: a row whose planned month is blank or
unparseable is dropped with a row-scoped error and no Activity is
created or updated for it, but its confirmed-creation funder has already
been created in the persistent store by then. -/
theorem C4_month_error_after_resolution (pd : PdParse) (st : Store)
    (stat : StatusRec) (nm sn pf : String) (cf cc : List String)
    (pcell : Option String)
    (hnb : isBlank (some nm) = false) (hnt : nm ≠ "")
    (hsb : isBlank (some sn) = false)
    (hsk : statusByKey st (normalizeKey (normalizeText sn)) = some stat)
    (hb : isBlank (some pf) = false) (hrp : refParts pf = [pf])
    (he : funderExact st pf = none) (hf : funderFuzzy st pf = none)
    (hc : pf ∈ cf) :
    (truthy pcell = true → parsePlannedMonth pd pcell = none →
      let row : Row := { name := some nm, status := some sn
                         planned := pcell, funder := some pf }
      let res := processDataframe pd ⟨true, false, [row]⟩ st [] cf cc
      res.store.funders = st.funders ++
        [⟨genFunderCode st (funderBase pf), pf, true⟩] ∧
      res.store.activities = st.activities ∧
      res.store.audits = st.audits ∧
      res.created = 0 ∧ res.updated = 0 ∧
      res.errors = ["Row " ++ natStr 2 ++ " (" ++ errName (some nm) ++
        "): invalid date format for \"" ++ pcell.getD "" ++ "\""]) ∧
    (truthy pcell = false →
      let row : Row := { name := some nm, status := some sn
                         planned := pcell, funder := some pf }
      let res := processDataframe pd ⟨true, false, [row]⟩ st [] cf cc
      res.store.funders = st.funders ++
        [⟨genFunderCode st (funderBase pf), pf, true⟩] ∧
      res.store.activities = st.activities ∧
      res.store.audits = st.audits ∧
      res.created = 0 ∧ res.updated = 0 ∧
      res.errors = ["Row " ++ natStr 2 ++ " (" ++ errName (some nm) ++
        "): Planned Implementation Month is required"]) := by
  refine ⟨?_, ?_⟩
  · intro hpt hpp row res
    have hframe : res = processRow pd [] cf cc 0 row ⟨st, 0, 0, 0, []⟩ := by
      simp [res, processDataframe, processAux]
    rw [hframe,
      processRow_resolves pd [] cf cc 0 row _ stat hnb
        (by simp [row, truthy, hnt]) (by simp) hsb hsk,
      processRowBody_month_invalid pd cf cc 0 row stat _ hpt hpp]
    simp only [resolveClusters_blank cc 2 (errName row.name) st none rfl,
      resolveFunders_single cf 2 (errName row.name) st (some pf) pf hb hrp,
      resolveFunderTok_create cf 2 (errName row.name) ⟨st, [], []⟩ pf he hf hc]
    simp
  · intro hpt row res
    have hframe : res = processRow pd [] cf cc 0 row ⟨st, 0, 0, 0, []⟩ := by
      simp [res, processDataframe, processAux]
    rw [hframe,
      processRow_resolves pd [] cf cc 0 row _ stat hnb
        (by simp [row, truthy, hnt]) (by simp) hsb hsk,
      processRowBody_month_missing pd cf cc 0 row stat _ hpt]
    simp only [resolveClusters_blank cc 2 (errName row.name) st none rfl,
      resolveFunders_single cf 2 (errName row.name) st (some pf) pf hb hrp,
      resolveFunderTok_create cf 2 (errName row.name) ⟨st, [], []⟩ pf he hf hc]
    simp

/-- Closed witness for C4 at the concrete confirmed-funder,
garbage-month input. -/
theorem C4_witness :
    (truthy (some "garbage") = true ∧
     parsePlannedMonth pdNone (some "garbage") = none) ∧
    ((processDataframe pdNone ⟨true, false, [rowGarb]⟩ storeP []
        ["Acme Trust"] []).store.funders = storeP.funders ++
          [⟨genFunderCode storeP (funderBase "Acme Trust"), "Acme Trust", true⟩] ∧
     (processDataframe pdNone ⟨true, false, [rowGarb]⟩ storeP []
        ["Acme Trust"] []).store.activities = storeP.activities ∧
     (processDataframe pdNone ⟨true, false, [rowGarb]⟩ storeP []
        ["Acme Trust"] []).store.audits = storeP.audits ∧
     (processDataframe pdNone ⟨true, false, [rowGarb]⟩ storeP []
        ["Acme Trust"] []).created = 0 ∧
     (processDataframe pdNone ⟨true, false, [rowGarb]⟩ storeP []
        ["Acme Trust"] []).updated = 0 ∧
     (processDataframe pdNone ⟨true, false, [rowGarb]⟩ storeP []
        ["Acme Trust"] []).errors =
       ["Row " ++ natStr 2 ++ " (" ++ errName (some "W") ++
        "): invalid date format for \"" ++ (some "garbage").getD "" ++ "\""]) := by
  refine ⟨⟨by decide, by decide⟩, ?_⟩
  exact (C4_month_error_after_resolution pdNone storeP ⟨"Planned"⟩ "W"
    "Planned" "Acme Trust" ["Acme Trust"] [] (some "garbage")
    (by decide) (by decide) (by decide) (by decide) (by decide)
    (by decide) (by decide) (by decide) (by decide)).1
    (by decide) (by decide)

/-! ## C7 -/

/-- `digitsVal` of a list extended by one digit character. -/
theorem digitsVal_append (l : List Char) (c : Char) :
    digitsVal (l ++ [c]) = digitsVal l * 10 + (c.toNat - 48) := by
  unfold digitsVal
  rw [List.foldl_append]
  rfl

/-- Digit characters are digits. -/
theorem digitChar_isDigit (m : Nat) (h : m < 10) :
    (digitChar m).isDigit = true := by
  interval_cases m <;> decide

/-- Digit characters decode to their digit. -/
theorem digitChar_val (m : Nat) (h : m < 10) :
    (digitChar m).toNat - 48 = m := by
  interval_cases m <;> decide

/-- With enough fuel, `natDigits` produces a non-empty all-digit run
decoding back to its input. -/
theorem natDigits_spec : ∀ (fuel n : Nat), n < fuel →
    natDigits fuel n ≠ [] ∧ (natDigits fuel n).all Char.isDigit = true ∧
    digitsVal (natDigits fuel n) = n := by
  intro fuel
  induction fuel with
  | zero => intro n h; exact absurd h (Nat.not_lt_zero n)
  | succ fuel ih =>
    intro n h
    unfold natDigits
    by_cases h10 : n < 10
    · simp only [if_pos h10]
      refine ⟨by simp, ?_, ?_⟩
      · simp [digitChar_isDigit n h10]
      · show digitsVal ([] ++ [digitChar n]) = n
        rw [digitsVal_append, digitChar_val n h10]
        simp [digitsVal]
    · simp only [if_neg h10]
      have hdiv : n / 10 < fuel := by
        have h1 : n / 10 < n := Nat.div_lt_self (by omega) (by omega)
        omega
      obtain ⟨h1, h2, h3⟩ := ih (n / 10) hdiv
      have hm : n % 10 < 10 := Nat.mod_lt _ (by omega)
      refine ⟨by simp, ?_, ?_⟩
      · rw [List.all_append, h2]
        simp [digitChar_isDigit _ hm]
      · rw [digitsVal_append, h3, digitChar_val _ hm]
        omega

/-- `parseDigits?` decodes the decimal representation. -/
theorem parseDigits_natStr (n : Nat) :
    parseDigits? (natStr n).data = some n := by
  obtain ⟨h1, h2, h3⟩ := natDigits_spec (n + 1) n (Nat.lt_succ_self n)
  unfold natStr parseDigits?
  simp only [h1, h2, h3]
  simp [h1, h2, h3]

/-- Decimal representations are injective. -/
theorem natStr_inj {m n : Nat} (h : natStr m = natStr n) : m = n := by
  have hm := parseDigits_natStr m
  rw [h, parseDigits_natStr n] at hm
  exact (Option.some.inj hm).symm

/-- Appending distinct decimal suffixes to the same base yields distinct
strings. -/
theorem append_natStr_inj (base : String) {i j : Nat}
    (h : base ++ natStr i = base ++ natStr j) : i = j := by
  have hd : base.data ++ (natStr i).data = base.data ++ (natStr j).data :=
    congrArg String.data h
  have hd2 : (natStr i).data = (natStr j).data :=
    List.append_cancel_left hd
  exact natStr_inj (congrArg String.mk hd2)

/-- The funder-code collision loop, characterised: when the base code is
free it is used as-is; when it is taken, the result is the base with the
least positive decimal suffix making it free — the loop cannot run out
of candidates because `n` existing codes cannot block `n + 1` distinct
ones. -/
theorem genFunderCode_spec (st : Store) (base : String) :
    (st.funders.all (fun f => f.code ≠ base) = true →
      genFunderCode st base = base) ∧
    (st.funders.all (fun f => f.code ≠ base) = false →
      ∃ i : Nat, 1 ≤ i ∧ genFunderCode st base = base ++ natStr i ∧
        st.funders.all (fun f => f.code ≠ base ++ natStr i) = true) := by
  constructor
  · intro h
    unfold genFunderCode
    rw [if_pos h]
  · intro h
    unfold genFunderCode
    rw [if_neg (fun hx => by rw [hx] at h; exact Bool.noConfusion h)]
    set cands := (List.range (st.funders.length + 1)).map
      (fun i => base ++ natStr (i + 1)) with hcands
    cases hfind : cands.find?
        (fun c => st.funders.all (fun f => f.code ≠ c)) with
    | some c =>
      have hp := List.find?_some hfind
      have hmem := List.mem_of_find?_eq_some hfind
      rw [hcands, List.mem_map] at hmem
      obtain ⟨i, _, hi⟩ := hmem
      exact ⟨i + 1, by omega, by rw [hi], by rw [hi]; exact hp⟩
    | none =>
      exfalso
      have hall := List.find?_eq_none.mp hfind
      have hsub : ∀ c ∈ cands, c ∈ st.funders.map (fun f => f.code) := by
        intro c hc
        have h1 := hall c hc
        simp only [List.all_eq_true, decide_eq_true_eq] at h1
        push_neg at h1
        obtain ⟨f, hf, hfc⟩ := h1
        rw [List.mem_map]
        exact ⟨f, hf, hfc⟩
      have hnodup : cands.Nodup := by
        rw [hcands]
        refine (List.nodup_range _).map ?_
        intro i j hij
        have := append_natStr_inj base hij
        omega
      have hlen : cands.length = st.funders.length + 1 := by
        rw [hcands, List.length_map, List.length_range]
      have hsubF : cands.toFinset ⊆ (st.funders.map (fun f => f.code)).toFinset := by
        intro x hx
        rw [List.mem_toFinset] at hx ⊢
        exact hsub x hx
      have hc1 : cands.toFinset.card = st.funders.length + 1 := by
        rw [List.toFinset_card_of_nodup hnodup, hlen]
      have hc2 : (st.funders.map (fun f => f.code)).toFinset.card ≤
          st.funders.length := by
        calc (st.funders.map (fun f => f.code)).toFinset.card
            ≤ (st.funders.map (fun f => f.code)).length := List.toFinset_card_le _
          _ = st.funders.length := List.length_map _ _
      have := Finset.card_le_card hsubF
      omega

/-- C7: at commit, a funder token in the confirmed-creation set with no
exact and no fuzzy match in master data creates a new Funder named
exactly by the token, whose code is the first 6 alphanumeric characters
of the uppercased name when that code is free, and otherwise that base
with the least positive numeric suffix making it free; the row's
Activity is then created and exactly one audit entry is recorded for
it. -/
theorem C7_confirmed_funder_creation (pd : PdParse) (st : Store)
    (stat : StatusRec) (nm sn pf : String) (pcell : Option String)
    (pm : Date) (cf cc : List String)
    (hnb : isBlank (some nm) = false) (hnt : nm ≠ "")
    (hsb : isBlank (some sn) = false)
    (hsk : statusByKey st (normalizeKey (normalizeText sn)) = some stat)
    (hpt : truthy pcell = true)
    (hpp : parsePlannedMonth pd pcell = some pm)
    (hb : isBlank (some pf) = false) (hrp : refParts pf = [pf])
    (he : funderExact st pf = none) (hf : funderFuzzy st pf = none)
    (hc : pf ∈ cf) :
    let row : Row := { name := some nm, status := some sn
                       planned := pcell, funder := some pf }
    let res := processDataframe pd ⟨true, false, [row]⟩ st [] cf cc
    let code := genFunderCode st (funderBase pf)
    res.store.funders = st.funders ++ [⟨code, pf, true⟩] ∧
    (String.mk (((upper pf).data.filter Char.isAlphanum).take 6) ≠ "" →
      funderBase pf =
        String.mk (((upper pf).data.filter Char.isAlphanum).take 6)) ∧
    (st.funders.all (fun f => f.code ≠ funderBase pf) = true →
      code = funderBase pf) ∧
    (st.funders.all (fun f => f.code ≠ funderBase pf) = false →
      ∃ i : Nat, 1 ≤ i ∧ code = funderBase pf ++ natStr i ∧
        st.funders.all (fun f => f.code ≠ code) = true) ∧
    res.created = 1 ∧
    ∃ act, res.store.activities = st.activities ++ [act] ∧
      act.funderCodes = [code] ∧
      res.store.audits = st.audits ++
        [⟨"Activity created via upload", act.activityId⟩] := by
  intro row res code
  have hframe : res = processRow pd [] cf cc 0 row ⟨st, 0, 0, 0, []⟩ := by
    simp [res, processDataframe, processAux]
  have hpb : parseBudget row.budget = some 0 := rfl
  have hpd : parseDisbursed row.disbursed = 0 := rfl
  have hid : truthy row.activityId = false := rfl
  rw [hframe,
    processRow_resolves pd [] cf cc 0 row _ stat hnb
      (by simp [row, truthy, hnt]) (by simp) hsb hsk,
    processRowBody_month_ok pd cf cc 0 row stat _ pm hpt hpp]
  simp only [resolveClusters_blank cc 2 (errName row.name) st none rfl,
    resolveFunders_single cf 2 (errName row.name) st (some pf) pf hb hrp,
    resolveFunderTok_create cf 2 (errName row.name) ⟨st, [], []⟩ pf he hf hc]
  rw [processMoney_some _ _ _ _ _ _ _ _ hpb, hpd,
    processUpsert_create_eq _ _ _ _ _ _ _ _ _ hid (by decide)]
  refine ⟨rfl, ?_, (genFunderCode_spec st (funderBase pf)).1, ?_, rfl, ?_⟩
  · intro hne
    unfold funderBase
    rw [if_pos hne]
  · intro hfail
    obtain ⟨i, h1, h2, h3⟩ := (genFunderCode_spec st (funderBase pf)).2 hfail
    refine ⟨i, h1, h2, ?_⟩
    show (st.funders.all fun f =>
      decide (f.code ≠ genFunderCode st (funderBase pf))) = true
    rw [h2]
    exact h3
  · refine ⟨_, rfl, ?_, rfl⟩
    simp [dedupKeepFirst, insertNew]

/-- Closed witness for C7 at the concrete confirmed creation of funder
`Acme Trust` over an empty funder table. -/
theorem C7_witness :
    (funderExact storeP "Acme Trust" = none ∧
     funderFuzzy storeP "Acme Trust" = none ∧
     "Acme Trust" ∈ ["Acme Trust"]) ∧
    (processDataframe pdNone ⟨true, false, [rowAcme]⟩ storeP []
        ["Acme Trust"] []).store.funders = storeP.funders ++
      [⟨genFunderCode storeP (funderBase "Acme Trust"), "Acme Trust", true⟩] ∧
    (processDataframe pdNone ⟨true, false, [rowAcme]⟩ storeP []
        ["Acme Trust"] []).created = 1 := by
  refine ⟨⟨by decide, by decide, by decide⟩, ?_, ?_⟩
  · exact (C7_confirmed_funder_creation pdNone storeP ⟨"Planned"⟩ "W"
      "Planned" "Acme Trust" (some "Aug-26") ⟨2026, 8, 31⟩ ["Acme Trust"] []
      (by decide) (by decide) (by decide) (by decide) (by decide)
      (by decide) (by decide) (by decide) (by decide) (by decide)
      (by decide)).1
  · exact (C7_confirmed_funder_creation pdNone storeP ⟨"Planned"⟩ "W"
      "Planned" "Acme Trust" (some "Aug-26") ⟨2026, 8, 31⟩ ["Acme Trust"] []
      (by decide) (by decide) (by decide) (by decide) (by decide)
      (by decide) (by decide) (by decide) (by decide) (by decide)
      (by decide)).2.2.2.2.1

/-! ## C9 -/

/-- Fold invariant: a property preserved by each step holds of the
result. -/
theorem foldl_inv {α β : Type _} (P : α → Prop) (g : α → β → α)
    (h : ∀ a b, P a → P (g a b)) :
    ∀ (l : List β) (a : α), P a → P (l.foldl g a) := by
  intro l
  induction l with
  | nil => intro a ha; exact ha
  | cons x xs ih =>
    intro a ha
    rw [List.foldl_cons]
    exact ih _ (h a x ha)

/-- Members of `setEntry m k v` come from `m` or are `(k, v)`. -/
theorem mem_setEntry {m : List (String × List String)} {k : String}
    {v : List String} {kv : String × List String}
    (h : kv ∈ setEntry m k v) : kv ∈ m ∨ kv = (k, v) := by
  unfold setEntry at h
  split at h
  · rw [List.mem_map] at h
    obtain ⟨e, he, heq⟩ := h
    by_cases hek : e.1 = k
    · right
      rw [if_pos hek] at heq
      exact heq.symm
    · left
      rw [if_neg hek] at heq
      exact heq ▸ he
  · rw [List.mem_append] at h
    cases h with
    | inl h => exact Or.inl h
    | inr h => exact Or.inr (List.mem_singleton.mp h)

/-- A successful association-list lookup is a membership. -/
theorem lookup_mem {m : List (String × List String)} {k : String}
    {v : List String} (h : m.lookup k = some v) : (k, v) ∈ m := by
  induction m with
  | nil => exact absurd h (by simp)
  | cons e es ih =>
    rw [List.lookup] at h
    split at h
    · rename_i hbeq
      cases e with
      | mk k1 v1 =>
        have hk : k = k1 := by
          have := of_decide_eq_true hbeq
          exact this
        cases h
        rw [hk]
        exact List.mem_cons_self _ _
    · exact List.mem_cons_of_mem _ (ih h)

/-- The invariant carried through `_summarize`: every recorded funder
suggestion list is the fuzzy-suggestion query for its token, and
likewise for clusters. -/
def SuggInv (st : Store) (acc : SummAcc) : Prop :=
  (∀ kv ∈ acc.funderSuggestions, kv.2 = funderSimilar st kv.1) ∧
  (∀ kv ∈ acc.clusterSuggestions, kv.2 = clusterSimilar st kv.1)

/-- The cluster token step preserves the suggestion invariant. -/
theorem suggInv_summClusterTok (st : Store) (acc : SummAcc) (p : String)
    (h : SuggInv st acc) : SuggInv st (summClusterTok st acc p) := by
  obtain ⟨hf, hc⟩ := h
  unfold summClusterTok
  try simp only []
  split
  · constructor
    · intro kv hkv
      split at hkv
      · exact hf kv hkv
      · exact hf kv hkv
    · intro kv hkv
      split at hkv
      · rcases mem_setEntry hkv with hm | he
        · exact hc kv hm
        · rw [he]
      · exact hc kv hkv
  · exact ⟨hf, hc⟩

/-- The funder token step preserves the suggestion invariant. -/
theorem suggInv_summFunderTok (st : Store) (acc : SummAcc) (p : String)
    (h : SuggInv st acc) : SuggInv st (summFunderTok st acc p) := by
  obtain ⟨hf, hc⟩ := h
  unfold summFunderTok
  try simp only []
  split
  · constructor
    · intro kv hkv
      split at hkv
      · rcases mem_setEntry hkv with hm | he
        · exact hf kv hm
        · rw [he]
      · exact hf kv hkv
    · intro kv hkv
      split at hkv
      · exact hc kv hkv
      · exact hc kv hkv
  · exact ⟨hf, hc⟩

/-- The numeric-sum step leaves both suggestion maps unchanged. -/
theorem sugg_summNums (row : Row) (acc : SummAcc) :
    (summNums row acc).funderSuggestions = acc.funderSuggestions ∧
    (summNums row acc).clusterSuggestions = acc.clusterSuggestions := by
  unfold summNums
  try simp only []
  repeat' split
  all_goals exact ⟨rfl, rfl⟩

/-- The status step leaves both suggestion maps unchanged. -/
theorem sugg_summStatus (st : Store) (row : Row) (acc : SummAcc) :
    (summStatus st row acc).funderSuggestions = acc.funderSuggestions ∧
    (summStatus st row acc).clusterSuggestions = acc.clusterSuggestions := by
  unfold summStatus
  try simp only []
  repeat' split
  all_goals exact ⟨rfl, rfl⟩

/-- The invalid-date step leaves both suggestion maps unchanged. -/
theorem sugg_summInvalid (pd : PdParse) (row : Row) (acc : SummAcc) :
    (summInvalid pd row acc).funderSuggestions = acc.funderSuggestions ∧
    (summInvalid pd row acc).clusterSuggestions = acc.clusterSuggestions := by
  unfold summInvalid
  repeat' split
  all_goals exact ⟨rfl, rfl⟩

/-- The duplicate step leaves both suggestion maps unchanged. -/
theorem sugg_summDups (pd : PdParse) (st : Store) (idx : Nat) (row : Row)
    (acc : SummAcc) :
    (summDups pd st idx row acc).funderSuggestions = acc.funderSuggestions ∧
    (summDups pd st idx row acc).clusterSuggestions = acc.clusterSuggestions := by
  unfold summDups
  try simp only []
  repeat' split
  all_goals exact ⟨rfl, rfl⟩

/-- One summarize iteration preserves the suggestion invariant. -/
theorem suggInv_summStep (pd : PdParse) (st : Store) (idx : Nat)
    (row : Row) (acc : SummAcc) (h : SuggInv st acc) :
    SuggInv st (summStep pd st idx row acc) := by
  unfold summStep
  have h1 : SuggInv st (summNums row acc) := by
    obtain ⟨hf, hc⟩ := h
    obtain ⟨e1, e2⟩ := sugg_summNums row acc
    exact ⟨by rw [e1]; exact hf, by rw [e2]; exact hc⟩
  have h2 : SuggInv st (summClusters st row (summNums row acc)) := by
    unfold summClusters
    split
    · split
      · exact foldl_inv (SuggInv st) (summClusterTok st)
          (fun a b => suggInv_summClusterTok st a b) _ _ h1
      · exact h1
    · exact h1
  have h3 : SuggInv st (summFunders st row (summClusters st row
      (summNums row acc))) := by
    unfold summFunders
    split
    · split
      · exact foldl_inv (SuggInv st) (summFunderTok st)
          (fun a b => suggInv_summFunderTok st a b) _ _ h2
      · exact h2
    · exact h2
  have h4 : SuggInv st (summStatus st row (summFunders st row
      (summClusters st row (summNums row acc)))) := by
    obtain ⟨hf, hc⟩ := h3
    obtain ⟨e1, e2⟩ := sugg_summStatus st row _
    exact ⟨by rw [e1]; exact hf, by rw [e2]; exact hc⟩
  have h5 : SuggInv st (summInvalid pd row (summStatus st row
      (summFunders st row (summClusters st row (summNums row acc))))) := by
    obtain ⟨hf, hc⟩ := h4
    obtain ⟨e1, e2⟩ := sugg_summInvalid pd row _
    exact ⟨by rw [e1]; exact hf, by rw [e2]; exact hc⟩
  have h6 : SuggInv st (summUpdates st idx row (summInvalid pd row
      (summStatus st row (summFunders st row (summClusters st row
        (summNums row acc)))))) := h5
  obtain ⟨hf, hc⟩ := h6
  obtain ⟨e1, e2⟩ := sugg_summDups pd st idx row _
  exact ⟨by rw [e1]; exact hf, by rw [e2]; exact hc⟩

/-- The summarize loop preserves the suggestion invariant. -/
theorem suggInv_summAux (pd : PdParse) (st : Store) :
    ∀ (rows : List Row) (idx : Nat) (acc : SummAcc),
      SuggInv st acc → SuggInv st (summAux pd st idx rows acc) := by
  intro rows
  induction rows with
  | nil => intro idx acc h; exact h
  | cons x xs ih =>
    intro idx acc h
    exact ih (idx + 1) _ (suggInv_summStep pd st idx x acc h)

/-- C9: during staging, every suggestion list recorded for an
unmatched funder or cluster token holds at most 5 names, each the name
of an existing master entity containing the token's first four
characters case-insensitively (for clusters, the matched and offered
name is the cluster's short name); and when exactly 8 entities match,
exactly 5 suggestions are offered. -/
theorem C9_fuzzy_suggestion_cap (pd : PdParse) (df : DataFrame)
    (st : Store) (tokF tokC : String) (suggF suggC : List String)
    (hfl : (summarize pd df st).funderSuggestions.lookup tokF = some suggF)
    (hcl : (summarize pd df st).clusterSuggestions.lookup tokC = some suggC) :
    (suggF.length ≤ 5 ∧
     (∀ nm ∈ suggF, ∃ f ∈ st.funders, f.name = nm ∧
        icontains f.name (take4 tokF) = true) ∧
     ((st.funders.filter (fun f => icontains f.name (take4 tokF))).length = 8 →
        suggF.length = 5)) ∧
    (suggC.length ≤ 5 ∧
     (∀ nm ∈ suggC, ∃ c ∈ st.clusters, c.shortName = nm ∧
        icontains c.shortName (take4 tokC) = true) ∧
     ((st.clusters.filter (fun c => icontains c.shortName (take4 tokC))).length = 8 →
        suggC.length = 5)) := by
  have hinv : SuggInv st (summAux pd st 0 df.rows {}) :=
    suggInv_summAux pd st df.rows 0 {} ⟨by simp, by simp⟩
  have hF : suggF = funderSimilar st tokF :=
    hinv.1 (tokF, suggF) (lookup_mem hfl)
  have hC : suggC = clusterSimilar st tokC :=
    hinv.2 (tokC, suggC) (lookup_mem hcl)
  subst hF
  subst hC
  constructor
  · refine ⟨?_, ?_, ?_⟩
    · unfold funderSimilar
      rw [List.length_take]
      exact min_le_left _ _
    · intro nm hnm
      unfold funderSimilar at hnm
      have := List.take_subset _ _ hnm
      rw [List.mem_map] at this
      obtain ⟨f, hfm, hname⟩ := this
      rw [List.mem_filter] at hfm
      exact ⟨f, hfm.1, hname, hfm.2⟩
    · intro h8
      unfold funderSimilar
      rw [List.length_take, List.length_map, h8]
      decide
  · refine ⟨?_, ?_, ?_⟩
    · unfold clusterSimilar
      rw [List.length_take]
      exact min_le_left _ _
    · intro nm hnm
      unfold clusterSimilar at hnm
      have := List.take_subset _ _ hnm
      rw [List.mem_map] at this
      obtain ⟨c, hcm, hname⟩ := this
      rw [List.mem_filter] at hcm
      exact ⟨c, hcm.1, hname, hcm.2⟩
    · intro h8
      unfold clusterSimilar
      rw [List.length_take, List.length_map, h8]
      decide

/-- Closed witness for C9: a token whose 4-character prefix is contained
in 8 existing names yields exactly 5 suggestions, for funders and for
clusters alike. -/
theorem C9_witness :
    ((summarize pdNone ⟨true, false, [rowSugg]⟩ storeSugg).funderSuggestions.lookup
        "Acme Trust" = some ["Acme Fund 0", "Acme Fund 1", "Acme Fund 2",
          "Acme Fund 3", "Acme Fund 4"]) ∧
    ((summarize pdNone ⟨true, false, [rowSugg]⟩ storeSugg).clusterSuggestions.lookup
        "WASHX" = some ["WASH0", "WASH1", "WASH2", "WASH3", "WASH4"]) ∧
    (storeSugg.funders.filter
      (fun f => icontains f.name (take4 "Acme Trust"))).length = 8 ∧
    (storeSugg.clusters.filter
      (fun c => icontains c.shortName (take4 "WASHX"))).length = 8 ∧
    ["Acme Fund 0", "Acme Fund 1", "Acme Fund 2", "Acme Fund 3",
      "Acme Fund 4"].length = 5 ∧
    ["WASH0", "WASH1", "WASH2", "WASH3", "WASH4"].length = 5 := by
  have hfl : (summarize pdNone ⟨true, false, [rowSugg]⟩ storeSugg).funderSuggestions.lookup
      "Acme Trust" = some ["Acme Fund 0", "Acme Fund 1", "Acme Fund 2",
        "Acme Fund 3", "Acme Fund 4"] := by decide
  have hcl : (summarize pdNone ⟨true, false, [rowSugg]⟩ storeSugg).clusterSuggestions.lookup
      "WASHX" = some ["WASH0", "WASH1", "WASH2", "WASH3", "WASH4"] := by decide
  refine ⟨hfl, hcl, by decide, by decide, ?_, ?_⟩
  · exact (C9_fuzzy_suggestion_cap pdNone ⟨true, false, [rowSugg]⟩ storeSugg
      "Acme Trust" "WASHX" _ _ hfl hcl).1.2.2 (by decide)
  · exact (C9_fuzzy_suggestion_cap pdNone ⟨true, false, [rowSugg]⟩ storeSugg
      "Acme Trust" "WASHX" _ _ hfl hcl).2.2.2 (by decide)

/-! ## C10 -/

/-- Appending a non-finalize audit entry leaves the finalize count. -/
theorem finalizeCount_append (l : List AuditRec) (x : AuditRec)
    (h : x.action ≠ "Upload finalized") :
    finalizeCount (l ++ [x]) = finalizeCount l := by
  unfold finalizeCount
  rw [List.filter_append]
  simp [h]

/-- Cluster token resolution never touches batches or audits. -/
theorem annex_resolveClusterTok (cc : List String) (n : Nat) (a : String)
    (acc : ResolveAcc) (p : String) :
    (resolveClusterTok cc n a acc p).store.batches = acc.store.batches ∧
    (resolveClusterTok cc n a acc p).store.audits = acc.store.audits := by
  unfold resolveClusterTok
  try simp only []
  repeat' split
  all_goals exact ⟨rfl, rfl⟩

/-- Funder token resolution never touches batches or audits. -/
theorem annex_resolveFunderTok (cf : List String) (n : Nat) (a : String)
    (acc : ResolveAcc) (p : String) :
    (resolveFunderTok cf n a acc p).store.batches = acc.store.batches ∧
    (resolveFunderTok cf n a acc p).store.audits = acc.store.audits := by
  unfold resolveFunderTok
  try simp only []
  repeat' split
  all_goals exact ⟨rfl, rfl⟩

/-- Cluster resolution never touches batches or audits. -/
theorem annex_resolveClusters (cc : List String) (n : Nat) (a : String)
    (st : Store) (cell : Option String) :
    (resolveClusters cc n a st cell).store.batches = st.batches ∧
    (resolveClusters cc n a st cell).store.audits = st.audits := by
  unfold resolveClusters
  split
  · have hpair := foldl_field_eq
      (fun acc : ResolveAcc => (acc.store.batches, acc.store.audits))
      (resolveClusterTok cc n a)
      (fun acc p => by
        obtain ⟨h1, h2⟩ := annex_resolveClusterTok cc n a acc p
        rw [Prod.ext_iff]
        exact ⟨h1, h2⟩)
      (refParts (cell.getD "")) ⟨st, [], []⟩
    exact ⟨congrArg Prod.fst hpair, congrArg Prod.snd hpair⟩
  · exact ⟨rfl, rfl⟩

/-- Funder resolution never touches batches or audits. -/
theorem annex_resolveFunders (cf : List String) (n : Nat) (a : String)
    (st : Store) (cell : Option String) :
    (resolveFunders cf n a st cell).store.batches = st.batches ∧
    (resolveFunders cf n a st cell).store.audits = st.audits := by
  unfold resolveFunders
  split
  · have hpair := foldl_field_eq
      (fun acc : ResolveAcc => (acc.store.batches, acc.store.audits))
      (resolveFunderTok cf n a)
      (fun acc p => by
        obtain ⟨h1, h2⟩ := annex_resolveFunderTok cf n a acc p
        rw [Prod.ext_iff]
        exact ⟨h1, h2⟩)
      (refParts (cell.getD "")) ⟨st, [], []⟩
    exact ⟨congrArg Prod.fst hpair, congrArg Prod.snd hpair⟩
  · exact ⟨rfl, rfl⟩

/-- The upsert stage never touches batches, and only appends
non-finalize audit entries. -/
theorem annex_processUpsert (idx : Nat) (row : Row) (stat : StatusRec)
    (pm : Date) (tb da : Rat) (cObjs fObjs : List String)
    (r : ProcResult) :
    (processUpsert idx row stat pm tb da cObjs fObjs r).store.batches =
      r.store.batches ∧
    finalizeCount (processUpsert idx row stat pm tb da cObjs fObjs r).store.audits =
      finalizeCount r.store.audits := by
  unfold processUpsert
  try simp only []
  repeat' split
  all_goals refine ⟨rfl, ?_⟩
  all_goals first
    | rfl
    | (rw [finalizeCount_append]; simp)

/-- The money stage never touches batches or the finalize count. -/
theorem annex_processMoney (idx : Nat) (row : Row) (stat : StatusRec)
    (pm : Date) (cObjs fObjs : List String) (r : ProcResult) :
    (processMoney idx row stat pm cObjs fObjs r).store.batches =
      r.store.batches ∧
    finalizeCount (processMoney idx row stat pm cObjs fObjs r).store.audits =
      finalizeCount r.store.audits := by
  unfold processMoney
  split
  · exact ⟨rfl, rfl⟩
  · exact annex_processUpsert _ _ _ _ _ _ _ _ _

/-- The row body never touches batches or the finalize count. -/
theorem annex_processRowBody (pd : PdParse) (cf cc : List String)
    (idx : Nat) (row : Row) (stat : StatusRec) (r : ProcResult) :
    (processRowBody pd cf cc idx row stat r).store.batches =
      r.store.batches ∧
    finalizeCount (processRowBody pd cf cc idx row stat r).store.audits =
      finalizeCount r.store.audits := by
  unfold processRowBody
  try simp only []
  obtain ⟨hcb, hca⟩ := annex_resolveClusters cc (idx + 2)
    (errName row.name) r.store row.cluster
  obtain ⟨hfb, hfa⟩ := annex_resolveFunders cf (idx + 2) (errName row.name)
    (resolveClusters cc (idx + 2) (errName row.name) r.store row.cluster).store
    row.funder
  split
  · split
    · exact ⟨by rw [hfb, hcb], by rw [hfa, hca]⟩
    · rename_i pm hpm
      obtain ⟨h1, h2⟩ := annex_processMoney idx row stat pm
        (resolveClusters cc (idx + 2) (errName row.name) r.store row.cluster).objs
        (resolveFunders cf (idx + 2) (errName row.name)
          (resolveClusters cc (idx + 2) (errName row.name) r.store
            row.cluster).store row.funder).objs
        { r with
            store := (resolveFunders cf (idx + 2) (errName row.name)
              (resolveClusters cc (idx + 2) (errName row.name) r.store
                row.cluster).store row.funder).store
            errors := r.errors ++
              (resolveClusters cc (idx + 2) (errName row.name) r.store
                row.cluster).errors ++
              (resolveFunders cf (idx + 2) (errName row.name)
                (resolveClusters cc (idx + 2) (errName row.name) r.store
                  row.cluster).store row.funder).errors }
      exact ⟨by rw [h1]; simp only []; rw [hfb, hcb],
             by rw [h2]; simp only []; rw [hfa, hca]⟩
  · exact ⟨by rw [hfb, hcb], by rw [hfa, hca]⟩

/-- One commit-executor iteration never touches batches or the finalize
count. -/
theorem annex_processRow (pd : PdParse) (ds : List (String × String))
    (cf cc : List String) (idx : Nat) (row : Row) (r : ProcResult) :
    (processRow pd ds cf cc idx row r).store.batches = r.store.batches ∧
    finalizeCount (processRow pd ds cf cc idx row r).store.audits =
      finalizeCount r.store.audits := by
  unfold processRow
  try simp only []
  repeat' split
  all_goals first
    | exact ⟨rfl, rfl⟩
    | exact annex_processRowBody _ _ _ _ _ _ _

/-- The commit-executor loop never touches batches or the finalize
count. -/
theorem annex_processAux (pd : PdParse) (ds : List (String × String))
    (cf cc : List String) :
    ∀ (rows : List Row) (idx : Nat) (r : ProcResult),
      (processAux pd ds cf cc idx rows r).store.batches = r.store.batches ∧
      finalizeCount (processAux pd ds cf cc idx rows r).store.audits =
        finalizeCount r.store.audits := by
  intro rows
  induction rows with
  | nil => intro idx r; exact ⟨rfl, rfl⟩
  | cons x xs ih =>
    intro idx r
    obtain ⟨h1, h2⟩ := ih (idx + 1) (processRow pd ds cf cc idx x r)
    obtain ⟨h3, h4⟩ := annex_processRow pd ds cf cc idx x r
    exact ⟨by rw [show processAux pd ds cf cc idx (x :: xs) r =
        processAux pd ds cf cc (idx + 1) xs (processRow pd ds cf cc idx x r)
        from rfl, h1, h3],
      by rw [show processAux pd ds cf cc idx (x :: xs) r =
        processAux pd ds cf cc (idx + 1) xs (processRow pd ds cf cc idx x r)
        from rfl, h2, h4]⟩

/-- `_process_dataframe` never creates batch records nor finalize audit
entries. -/
theorem annex_processDataframe (pd : PdParse) (df : DataFrame) (st : Store)
    (ds : List (String × String)) (cf cc : List String) :
    (processDataframe pd df st ds cf cc).store.batches = st.batches ∧
    finalizeCount (processDataframe pd df st ds cf cc).store.audits =
      finalizeCount st.audits :=
  annex_processAux pd ds cf cc df.rows 0 ⟨st, 0, 0, 0, []⟩

/-- `List.min?` on naturals, characterised. -/
theorem natMin_eq_some {l : List Nat} {a : Nat} :
    l.min? = some a ↔ a ∈ l ∧ ∀ b ∈ l, a ≤ b :=
  List.min?_eq_some_iff (fun _ => Nat.le_refl _) (fun _ _ => min_choice _ _)
    (fun _ _ _ => le_min_iff)

/-- A strictly most frequent element is the pandas mode. -/
theorem modeMin_strict (l : List Nat) (y : Nat) (hy : y ∈ l)
    (hstrict : ∀ z ∈ l, z ≠ y → l.count z < l.count y) :
    modeMin l = some y := by
  unfold modeMin
  rw [natMin_eq_some]
  constructor
  · rw [List.mem_filter]
    refine ⟨hy, ?_⟩
    rw [decide_eq_true_eq]
    intro z hz
    by_cases hzy : z = y
    · rw [hzy]
    · exact Nat.le_of_lt (hstrict z hz hzy)
  · intro b hb
    rw [List.mem_filter, decide_eq_true_eq] at hb
    obtain ⟨hbl, hball⟩ := hb
    by_cases hby : b = y
    · rw [hby]
    · exact absurd (hball y hy) (Nat.not_le.mpr (hstrict b hbl hby))

/-- The C10 counterexample dataframe: one valid-status row, but no
`Planned Implementation Month` column at all. -/
def dfNoCol : DataFrame :=
  ⟨false, false, [{ name := some "W", status := some "Planned" }]⟩

/-- C10 counterexample: a commit that passes the hard-blocking status
check but whose file has no `Planned Implementation Month` column
crashes on the batch-year column access after row processing — no
`UploadBatch` record and no `Upload finalized` audit entry is created,
though the commit did run the rows (each erroring). -/
theorem C10_no_batch_without_column :
    (summarize pdNone dfNoCol storeP).unknownStatuses = [] ∧
    (summarize pdNone dfNoCol storeP).defaultStatusMissing = false ∧
    (uploadConfirm pdNone dfNoCol storeP [] [] [] 2026 "f.csv").crashed = true ∧
    (uploadConfirm pdNone dfNoCol storeP [] [] [] 2026 "f.csv").store.batches = [] ∧
    (uploadConfirm pdNone dfNoCol storeP [] [] [] 2026 "f.csv").store.audits = [] ∧
    (uploadConfirm pdNone dfNoCol storeP [] [] [] 2026 "f.csv").errors =
      ["Row 2 (W): Planned Implementation Month is required"] := by
  decide

/-- C10 (amended): a commit that passes the hard-blocking status check
and whose dataframe has a `Planned Implementation Month` column creates
exactly one `UploadBatch` — its year the smallest most common
pandas-parsed planned-month year, falling back to today's year when no
year parses (or the mode is the falsy 0) — and appends exactly one
`Upload finalized` audit entry, regardless of how many rows were
created, updated or errored.  Without that column the batch-year
computation raises `KeyError` after row processing, so neither record is
written. -/
theorem C10_one_batch_per_commit (pd : PdParse) (df : DataFrame)
    (st : Store) (ds : List (String × String)) (cf cc : List String)
    (ty : Nat) (fn : String)
    (hu : (summarize pd df st).unknownStatuses = [])
    (hm : (summarize pd df st).defaultStatusMissing = false)
    (hcol : df.hasPlannedCol = true) :
    let res := uploadConfirm pd df st ds cf cc ty fn
    res.store.batches.length = st.batches.length + 1 ∧
    finalizeCount res.store.audits = finalizeCount st.audits + 1 ∧
    (∃ yv : Nat, res.store.batches = st.batches ++ [⟨yv, fn⟩] ∧
      (batchYears pd df = [] → ty ≠ 0 → yv = ty) ∧
      (∀ y, y ∈ batchYears pd df →
        (∀ z ∈ batchYears pd df, z ≠ y → (batchYears pd df).count z <
          (batchYears pd df).count y) → y ≠ 0 → yv = y)) := by
  intro res
  have hcond : (decide ((summarize pd df st).unknownStatuses ≠ []) ||
      (summarize pd df st).defaultStatusMissing) = false := by
    simp [hu, hm]
  have hres : res = uploadConfirm pd df st ds cf cc ty fn := rfl
  unfold uploadConfirm at hres
  simp only [] at hres
  rw [if_neg (by rw [hcond]; exact Bool.false_ne_true), if_pos hcol] at hres
  obtain ⟨hb, ha⟩ := annex_processDataframe pd df st ds cf cc
  refine ⟨?_, ?_, ?_⟩
  · rw [hres]
    simp only []
    rw [List.length_append, hb]
    rfl
  · rw [hres]
    simp only []
    rw [show finalizeCount ((processDataframe pd df st ds cf cc).store.audits ++
        [⟨"Upload finalized", "UploadBatch object"⟩]) =
        finalizeCount (processDataframe pd df st ds cf cc).store.audits + 1
      from by unfold finalizeCount; rw [List.filter_append]; simp, ha]
  · refine ⟨_, by rw [hres]; simp only []; rw [hb], ?_, ?_⟩
    · intro hnil hty
      rw [hnil]
      unfold modeMin
      simp [hty]
    · intro y hy hstrict hy0
      rw [modeMin_strict _ y hy hstrict]
      simp [hy0]

/-- Closed witness for C10 at a concrete commit: one batch record with
the modal parsed year 2026 (not today's 2025) and one finalize entry. -/
theorem C10_witness :
    ((summarize pdAug ⟨true, false, [rowOk]⟩ storeP).unknownStatuses = [] ∧
     (summarize pdAug ⟨true, false, [rowOk]⟩ storeP).defaultStatusMissing = false ∧
     (uploadConfirm pdAug ⟨true, false, [rowOk]⟩ storeP [] [] [] 2025
        "f.csv").store.batches = [⟨2026, "f.csv"⟩]) ∧
    ((uploadConfirm pdAug ⟨true, false, [rowOk]⟩ storeP [] [] [] 2025
        "f.csv").store.batches.length = storeP.batches.length + 1 ∧
     finalizeCount (uploadConfirm pdAug ⟨true, false, [rowOk]⟩ storeP [] [] []
        2025 "f.csv").store.audits = finalizeCount storeP.audits + 1 ∧
     (∃ yv : Nat, (uploadConfirm pdAug ⟨true, false, [rowOk]⟩ storeP [] [] []
          2025 "f.csv").store.batches = storeP.batches ++ [⟨yv, "f.csv"⟩] ∧
       (batchYears pdAug ⟨true, false, [rowOk]⟩ = [] → (2025 : Nat) ≠ 0 →
         yv = 2025) ∧
       (∀ y, y ∈ batchYears pdAug ⟨true, false, [rowOk]⟩ →
         (∀ z ∈ batchYears pdAug ⟨true, false, [rowOk]⟩, z ≠ y →
           (batchYears pdAug ⟨true, false, [rowOk]⟩).count z <
             (batchYears pdAug ⟨true, false, [rowOk]⟩).count y) →
         y ≠ 0 → yv = y))) := by
  refine ⟨⟨by decide, by decide, by decide⟩, ?_⟩
  exact C10_one_batch_per_commit pdAug ⟨true, false, [rowOk]⟩ storeP [] [] []
    2025 "f.csv" (by decide) (by decide) rfl

/-! ## C6 -/

/-- The numeric-sum step leaves updates and duplicates unchanged. -/
theorem ud_summNums (row : Row) (acc : SummAcc) :
    (summNums row acc).updates = acc.updates ∧
    (summNums row acc).duplicates = acc.duplicates := by
  unfold summNums
  try simp only []
  repeat' split
  all_goals exact ⟨rfl, rfl⟩

/-- The cluster token step leaves updates and duplicates unchanged. -/
theorem ud_summClusterTok (st : Store) (acc : SummAcc) (p : String) :
    (summClusterTok st acc p).updates = acc.updates ∧
    (summClusterTok st acc p).duplicates = acc.duplicates := by
  unfold summClusterTok
  try simp only []
  repeat' split
  all_goals exact ⟨rfl, rfl⟩

/-- The cluster step leaves updates and duplicates unchanged. -/
theorem ud_summClusters (st : Store) (row : Row) (acc : SummAcc) :
    (summClusters st row acc).updates = acc.updates ∧
    (summClusters st row acc).duplicates = acc.duplicates := by
  unfold summClusters
  split
  · rename_i cs hcs
    split
    · have hpair := foldl_field_eq
        (fun a : SummAcc => (a.updates, a.duplicates)) (summClusterTok st)
        (fun a p => by
          obtain ⟨h1, h2⟩ := ud_summClusterTok st a p
          rw [Prod.ext_iff]
          exact ⟨h1, h2⟩)
        (refParts cs) acc
      exact ⟨congrArg Prod.fst hpair, congrArg Prod.snd hpair⟩
    · exact ⟨rfl, rfl⟩
  · exact ⟨rfl, rfl⟩

/-- The funder token step leaves updates and duplicates unchanged. -/
theorem ud_summFunderTok (st : Store) (acc : SummAcc) (p : String) :
    (summFunderTok st acc p).updates = acc.updates ∧
    (summFunderTok st acc p).duplicates = acc.duplicates := by
  unfold summFunderTok
  try simp only []
  repeat' split
  all_goals exact ⟨rfl, rfl⟩

/-- The funder step leaves updates and duplicates unchanged. -/
theorem ud_summFunders (st : Store) (row : Row) (acc : SummAcc) :
    (summFunders st row acc).updates = acc.updates ∧
    (summFunders st row acc).duplicates = acc.duplicates := by
  unfold summFunders
  split
  · rename_i fs hfs
    split
    · have hpair := foldl_field_eq
        (fun a : SummAcc => (a.updates, a.duplicates)) (summFunderTok st)
        (fun a p => by
          obtain ⟨h1, h2⟩ := ud_summFunderTok st a p
          rw [Prod.ext_iff]
          exact ⟨h1, h2⟩)
        (refParts fs) acc
      exact ⟨congrArg Prod.fst hpair, congrArg Prod.snd hpair⟩
    · exact ⟨rfl, rfl⟩
  · exact ⟨rfl, rfl⟩

/-- The status step leaves updates and duplicates unchanged. -/
theorem ud_summStatus (st : Store) (row : Row) (acc : SummAcc) :
    (summStatus st row acc).updates = acc.updates ∧
    (summStatus st row acc).duplicates = acc.duplicates := by
  unfold summStatus
  try simp only []
  repeat' split
  all_goals exact ⟨rfl, rfl⟩

/-- The invalid-date step leaves updates and duplicates unchanged. -/
theorem ud_summInvalid (pd : PdParse) (row : Row) (acc : SummAcc) :
    (summInvalid pd row acc).updates = acc.updates ∧
    (summInvalid pd row acc).duplicates = acc.duplicates := by
  unfold summInvalid
  repeat' split
  all_goals exact ⟨rfl, rfl⟩

/-- The duplicate step leaves updates unchanged. -/
theorem upd_summDups (pd : PdParse) (st : Store) (idx : Nat) (row : Row)
    (acc : SummAcc) :
    (summDups pd st idx row acc).updates = acc.updates := by
  unfold summDups
  try simp only []
  repeat' split
  all_goals rfl

/-- One summarize iteration appends exactly this row's update entries. -/
theorem summStep_updates (pd : PdParse) (st : Store) (idx : Nat)
    (row : Row) (acc : SummAcc) :
    (summStep pd st idx row acc).updates =
      acc.updates ++ rowUpd st idx row := by
  unfold summStep
  rw [upd_summDups]
  show (summInvalid pd row (summStatus st row (summFunders st row
      (summClusters st row (summNums row acc))))).updates ++
      rowUpd st idx row = acc.updates ++ rowUpd st idx row
  rw [(ud_summInvalid pd row _).1, (ud_summStatus st row _).1,
    (ud_summFunders st row _).1, (ud_summClusters st row _).1,
    (ud_summNums row acc).1]

/-- Every update entry a row contributes carries that row's number. -/
theorem rowUpd_row (st : Store) (idx : Nat) (row : Row) :
    ∀ u ∈ rowUpd st idx row, u.row = idx + 2 := by
  intro u hu
  unfold rowUpd at hu
  split at hu
  · split at hu
    · rw [List.mem_singleton] at hu
      rw [hu]
    · exact absurd hu (by simp)
  · exact absurd hu (by simp)

/-- Every duplicate entry a row contributes carries that row's
number. -/
theorem rowDups_row (pd : PdParse) (st : Store) (idx : Nat) (row : Row) :
    ∀ e ∈ rowDups pd st idx row, e.row = idx + 2 := by
  intro e he
  unfold rowDups at he
  split at he
  · split at he
    · rename_i d hd
      simp only [] at he
      split at he
      · split at he
        · rw [List.mem_map] at he
          obtain ⟨a, _, ha⟩ := he
          rw [← ha]
          rfl
        · exact absurd he (by simp)
      · exact absurd he (by simp)
    · exact absurd he (by simp)
  · exact absurd he (by simp)

/-- When this row's own update check agrees, the duplicate step appends
exactly the row's pure duplicate entries. -/
theorem summDups_eq (pd : PdParse) (st : Store) (idx : Nat) (row : Row)
    (acc : SummAcc)
    (hany : acc.updates.any (fun u => u.row = idx + 2) =
      (rowUpd st idx row).any (fun u => u.row = idx + 2)) :
    (summDups pd st idx row acc).duplicates =
      acc.duplicates ++ rowDups pd st idx row := by
  unfold summDups rowDups
  rw [hany]
  try simp only []
  repeat' split
  all_goals simp

/-- One summarize iteration appends exactly this row's pure duplicate
entries, provided no earlier update entry carries this row number. -/
theorem summStep_dups (pd : PdParse) (st : Store) (idx : Nat) (row : Row)
    (acc : SummAcc) (hinv : ∀ u ∈ acc.updates, u.row ≠ idx + 2) :
    (summStep pd st idx row acc).duplicates =
      acc.duplicates ++ rowDups pd st idx row := by
  unfold summStep
  have hupd : (summUpdates st idx row (summInvalid pd row (summStatus st row
      (summFunders st row (summClusters st row (summNums row acc)))))).updates =
      acc.updates ++ rowUpd st idx row := by
    show (summInvalid pd row _).updates ++ rowUpd st idx row = _
    rw [(ud_summInvalid pd row _).1, (ud_summStatus st row _).1,
      (ud_summFunders st row _).1, (ud_summClusters st row _).1,
      (ud_summNums row acc).1]
  have hdup : (summUpdates st idx row (summInvalid pd row (summStatus st row
      (summFunders st row (summClusters st row (summNums row acc)))))).duplicates =
      acc.duplicates := by
    show (summInvalid pd row _).duplicates = _
    rw [(ud_summInvalid pd row _).2, (ud_summStatus st row _).2,
      (ud_summFunders st row _).2, (ud_summClusters st row _).2,
      (ud_summNums row acc).2]
  rw [summDups_eq pd st idx row _ ?_, hdup]
  rw [hupd, List.any_append]
  have hfalse : acc.updates.any (fun u => u.row = idx + 2) = false := by
    rw [List.any_eq_false]
    intro u hu
    simp only [decide_eq_true_eq]
    exact hinv u hu
  rw [hfalse, Bool.false_or]

/-- The summarize loop collects exactly the per-row update entries, in
order. -/
theorem summAux_updates (pd : PdParse) (st : Store) :
    ∀ (rows : List Row) (idx : Nat) (acc : SummAcc),
      (summAux pd st idx rows acc).updates =
        acc.updates ++ flatIdx (rowUpd st) idx rows := by
  intro rows
  induction rows with
  | nil => intro idx acc; simp [summAux, flatIdx]
  | cons x xs ih =>
    intro idx acc
    show (summAux pd st (idx + 1) xs (summStep pd st idx x acc)).updates = _
    rw [ih (idx + 1) _, summStep_updates]
    show acc.updates ++ rowUpd st idx x ++ flatIdx (rowUpd st) (idx + 1) xs =
      acc.updates ++ (rowUpd st idx x ++ flatIdx (rowUpd st) (idx + 1) xs)
    rw [List.append_assoc]

/-- The summarize loop collects exactly the per-row pure duplicate
entries, in order, provided no accumulated update entry carries a row
number the loop will still visit. -/
theorem summAux_dups (pd : PdParse) (st : Store) :
    ∀ (rows : List Row) (idx : Nat) (acc : SummAcc),
      (∀ u ∈ acc.updates, u.row < idx + 2) →
      (summAux pd st idx rows acc).duplicates =
        acc.duplicates ++ flatIdx (rowDups pd st) idx rows := by
  intro rows
  induction rows with
  | nil => intro idx acc _; simp [summAux, flatIdx]
  | cons x xs ih =>
    intro idx acc hinv
    show (summAux pd st (idx + 1) xs (summStep pd st idx x acc)).duplicates = _
    have hinv2 : ∀ u ∈ (summStep pd st idx x acc).updates, u.row < idx + 3 := by
      intro u hu
      rw [summStep_updates] at hu
      rw [List.mem_append] at hu
      cases hu with
      | inl hu => exact Nat.lt_succ_of_lt (hinv u hu)
      | inr hu => rw [rowUpd_row st idx x u hu]; omega
    rw [ih (idx + 1) _ (by intro u hu; have := hinv2 u hu; omega),
      summStep_dups pd st idx x acc
        (by intro u hu; have := hinv u hu; omega)]
    rw [List.append_assoc]
    rfl

/-- `_summarize`'s updates list, characterised row by row. -/
theorem summarize_updates (pd : PdParse) (df : DataFrame) (st : Store) :
    (summarize pd df st).updates = flatIdx (rowUpd st) 0 df.rows := by
  show (summAux pd st 0 df.rows {}).updates = _
  rw [summAux_updates]
  rfl

/-- `_summarize`'s duplicates list, characterised row by row. -/
theorem summarize_dups (pd : PdParse) (df : DataFrame) (st : Store) :
    (summarize pd df st).duplicates = flatIdx (rowDups pd st) 0 df.rows := by
  show (summAux pd st 0 df.rows {}).duplicates = _
  rw [summAux_dups pd st df.rows 0 {} (by intro u hu; exact absurd hu (by simp))]
  rfl

/-- Members of an indexed concatenation come from some row. -/
theorem mem_flatIdx {α : Type _} {f : Nat → Row → List α} {e : α} :
    ∀ (rows : List Row) (idx : Nat), e ∈ flatIdx f idx rows →
      ∃ j r, rows.get? j = some r ∧ e ∈ f (idx + j) r := by
  intro rows
  induction rows with
  | nil => intro idx h; exact absurd h (by simp [flatIdx])
  | cons x xs ih =>
    intro idx h
    rw [show flatIdx f idx (x :: xs) = f idx x ++ flatIdx f (idx + 1) xs
      from rfl, List.mem_append] at h
    cases h with
    | inl h => exact ⟨0, x, rfl, by rw [Nat.add_zero]; exact h⟩
    | inr h =>
      obtain ⟨j, r, hget, hmem⟩ := ih (idx + 1) h
      refine ⟨j + 1, r, hget, ?_⟩
      rw [show idx + (j + 1) = idx + 1 + j from by omega]
      exact hmem

/-- Filtering an indexed concatenation of row-tagged entries down to one
row number leaves exactly that row's contribution. -/
theorem flatIdx_filter (pd : PdParse) (st : Store) :
    ∀ (rows : List Row) (idx n : Nat) (row : Row),
      rows.get? n = some row →
      (flatIdx (rowDups pd st) idx rows).filter
        (fun e => e.row = idx + n + 2) = rowDups pd st (idx + n) row := by
  intro rows
  induction rows with
  | nil => intro idx n row h; exact absurd h (by simp)
  | cons x xs ih =>
    intro idx n row h
    rw [show flatIdx (rowDups pd st) idx (x :: xs) =
      rowDups pd st idx x ++ flatIdx (rowDups pd st) (idx + 1) xs from rfl,
      List.filter_append]
    cases n with
    | zero =>
      have hx : x = row := by
        have : some x = some row := h
        exact Option.some.inj this
      have h1 : (rowDups pd st idx x).filter
          (fun e => e.row = idx + 0 + 2) = rowDups pd st idx x := by
        rw [List.filter_eq_self]
        intro e he
        rw [decide_eq_true_eq, rowDups_row pd st idx x e he]
        try omega
      have h2 : (flatIdx (rowDups pd st) (idx + 1) xs).filter
          (fun e => e.row = idx + 0 + 2) = [] := by
        rw [List.filter_eq_nil_iff]
        intro e he
        obtain ⟨j, r, _, hmem⟩ := mem_flatIdx xs (idx + 1) he
        rw [decide_eq_true_eq, rowDups_row pd st (idx + 1 + j) r e hmem]
        omega
      rw [h1, h2, List.append_nil, hx]
      try rw [show idx + 0 = idx from by omega]
    | succ n =>
      have h1 : (rowDups pd st idx x).filter
          (fun e => e.row = idx + (n + 1) + 2) = [] := by
        rw [List.filter_eq_nil_iff]
        intro e he
        rw [decide_eq_true_eq, rowDups_row pd st idx x e he]
        omega
      have hget : xs.get? n = some row := h
      have h2 := ih (idx + 1) n row hget
      rw [h1, List.nil_append]
      rw [show idx + (n + 1) + 2 = idx + 1 + n + 2 from by omega,
        show idx + (n + 1) = idx + 1 + n from by omega]
      exact h2

/-- Insertion keeps the members. -/
theorem mem_insertLe {α : Type _} (le : α → α → Bool) (a x : α) :
    ∀ l, x ∈ insertLe le a l ↔ x = a ∨ x ∈ l := by
  intro l
  induction l with
  | nil => simp [insertLe]
  | cons b bs ih =>
    unfold insertLe
    split
    · simp
    · rw [List.mem_cons, ih, List.mem_cons]
      tauto

/-- Sorting keeps the members. -/
theorem mem_sortLe {α : Type _} (le : α → α → Bool) (x : α) :
    ∀ l, x ∈ sortLe le l ↔ x ∈ l := by
  intro l
  induction l with
  | nil => simp [sortLe]
  | cons b bs ih =>
    unfold sortLe
    rw [mem_insertLe, ih, List.mem_cons]

/-- What membership in the duplicate-detection query guarantees. -/
theorem dupMatches_mem {st : Store} {nm : String} {yr : Nat}
    {cluster : Option String} {a : ActivityRec}
    (h : a ∈ dupMatches st nm yr cluster) :
    a ∈ st.activities ∧ iexact a.name (strip nm) = true ∧ a.year = yr ∧
    (∀ cs, cluster = some cs → cs ≠ "" → cpartsOf cs ≠ [] →
      a.clusterShorts.any (fun c => c ∈ cpartsOf cs) = true) := by
  unfold dupMatches at h
  rw [mem_sortLe] at h
  have hbase : a ∈ st.activities.filter
      (fun a => iexact a.name (strip nm) && a.year = yr) ∧
      (∀ cs, cluster = some cs → cs ≠ "" → cpartsOf cs ≠ [] →
        a.clusterShorts.any (fun c => c ∈ cpartsOf cs) = true) := by
    split at h
    · rename_i cluster2 cs
      split at h
      · rw [List.mem_filter] at h
        refine ⟨h.1, ?_⟩
        intro cs2 hcs2 _ _
        cases Option.some.inj hcs2
        exact h.2
      · rename_i hcond
        refine ⟨h, ?_⟩
        intro cs2 hcs2 h1 h2
        cases Option.some.inj hcs2
        exact absurd (by simp [h1, h2]) hcond
    · refine ⟨h, ?_⟩
      intro cs2 hcs2 _ _
      exact absurd hcs2 (by simp)
  obtain ⟨hmem, hcl⟩ := hbase
  rw [List.mem_filter, Bool.and_eq_true] at hmem
  exact ⟨hmem.1, hmem.2.1, by
    have := hmem.2.2
    rwa [decide_eq_true_eq] at this, hcl⟩

/-- A row contributes at most 3 duplicate entries. -/
theorem rowDups_length (pd : PdParse) (st : Store) (idx : Nat)
    (row : Row) : (rowDups pd st idx row).length ≤ 3 := by
  unfold rowDups
  try simp only []
  repeat' split
  all_goals simp [List.length_take]

/-- Every duplicate entry a row contributes reports a persisted activity
matching the row by case-insensitive name, parsed year, and overlapping
listed cluster when clusters are given. -/
theorem rowDups_sound (pd : PdParse) (st : Store) (idx : Nat)
    (row : Row) :
    ∀ e ∈ rowDups pd st idx row, ∃ a, a ∈ st.activities ∧
      iexact a.name (strip (row.name.getD "")) = true ∧
      (∃ d, rowParsedDt pd row = some d ∧ a.year = d.year) ∧
      (∀ cs, row.cluster = some cs → cs ≠ "" → cpartsOf cs ≠ [] →
        a.clusterShorts.any (fun c => c ∈ cpartsOf cs) = true) ∧
      e = mkDup (idx + 2) (row.name.getD "") a := by
  intro e he
  unfold rowDups at he
  split at he
  · split at he
    · rename_i d hd
      simp only [] at he
      split at he
      · split at he
        · rw [List.mem_map] at he
          obtain ⟨a, hamem, hae⟩ := he
          obtain ⟨h1, h2, h3, h4⟩ := dupMatches_mem (List.take_subset _ _ hamem)
          exact ⟨a, h1, h2, ⟨d, hd, h3⟩, h4, hae.symm⟩
        · exact absurd he (by simp)
      · exact absurd he (by simp)
    · exact absurd he (by simp)
  · exact absurd he (by simp)

/-- A row that just entered the updates list contributes no duplicate
entries. -/
theorem rowDups_suppressed (pd : PdParse) (st : Store) (idx : Nat)
    (row : Row) (hne : rowUpd st idx row ≠ []) :
    rowDups pd st idx row = [] := by
  have hid : truthy row.activityId = true := by
    by_contra hx
    have hfalse : truthy row.activityId = false := by
      cases hc : truthy row.activityId
      · rfl
      · exact absurd hc hx
    apply hne
    unfold rowUpd
    simp [hfalse]
  have hany : (rowUpd st idx row).any (fun u => u.row = idx + 2) = true := by
    cases hrw : rowUpd st idx row with
    | nil => exact absurd hrw hne
    | cons u us =>
      have hu : u.row = idx + 2 :=
        rowUpd_row st idx row u (by rw [hrw]; exact List.mem_cons_self _ _)
      rw [List.any_cons]
      simp [hu]
  unfold rowDups
  try simp only []
  repeat' split
  all_goals first
  | rfl
  | (rename_i hcond
     rw [hid, hany] at hcond
     exact absurd hcond (by decide))

/-- C6: for every staged row with a truthy name and a parsed planned
month, the Summary reports as duplicates exactly the row's pure
duplicate entries — persisted activities with the same case-insensitive
name and year, narrowed to those sharing a listed cluster when clusters
are specified, capped at 3 per row; the check also runs for rows
carrying an external id, but a row already reported in the updates list
contributes no duplicate entries. -/
theorem C6_duplicate_reporting (pd : PdParse) (df : DataFrame)
    (st : Store) (n : Nat) (row : Row) (h : df.rows.get? n = some row) :
    let S := summarize pd df st
    let dups := S.duplicates.filter (fun e => e.row = n + 2)
    dups = rowDups pd st n row ∧
    dups.length ≤ 3 ∧
    (∀ e ∈ dups, ∃ a, a ∈ st.activities ∧
      iexact a.name (strip (row.name.getD "")) = true ∧
      (∃ d, rowParsedDt pd row = some d ∧ a.year = d.year) ∧
      (∀ cs, row.cluster = some cs → cs ≠ "" → cpartsOf cs ≠ [] →
        a.clusterShorts.any (fun c => c ∈ cpartsOf cs) = true) ∧
      e = mkDup (n + 2) (row.name.getD "") a) ∧
    ((∃ u ∈ S.updates, u.row = n + 2) → dups = []) := by
  intro S dups
  have h1 : dups = rowDups pd st n row := by
    show ((summarize pd df st).duplicates.filter (fun e => e.row = n + 2)) = _
    rw [summarize_dups]
    have hfil := flatIdx_filter pd st df.rows 0 n row h
    simp only [Nat.zero_add] at hfil
    exact hfil
  refine ⟨h1, ?_, ?_, ?_⟩
  · rw [h1]
    exact rowDups_length pd st n row
  · intro e he
    rw [h1] at he
    exact rowDups_sound pd st n row e he
  · intro ⟨u, humem, hurow⟩
    have humem2 : u ∈ flatIdx (rowUpd st) 0 df.rows := by
      rw [show S = summarize pd df st from rfl, summarize_updates] at humem
      exact humem
    obtain ⟨j, r, hget, hmem⟩ := mem_flatIdx df.rows 0 humem2
    simp only [Nat.zero_add] at hmem
    have hj : u.row = j + 2 := rowUpd_row st j r u hmem
    have hjn : j = n := by omega
    subst hjn
    rw [hget] at h
    have hr : r = row := Option.some.inj h
    subst hr
    have hne : rowUpd st j r ≠ [] := by
      intro hx
      rw [hx] at hmem
      exact absurd hmem (by simp)
    rw [h1]
    exact rowDups_suppressed pd st j r hne

/-- Closed witness for C6 at a concrete duplicated row. -/
theorem C6_witness :
    (⟨true, false, [rowDup]⟩ : DataFrame).rows.get? 0 = some rowDup ∧
    ((summarize pdNone ⟨true, false, [rowDup]⟩ storeDup).duplicates =
      [{ row := 2, name := "Water Survey", existingId := "Y26-000001"
         existingName := "water survey", existingYear := 2026
         existingCluster := "WASH" }]) ∧
    ((summarize pdNone ⟨true, false, [rowDup]⟩ storeDup).duplicates.filter
      (fun e => e.row = 0 + 2)).length ≤ 3 ∧
    ((summarize pdNone ⟨true, false, [rowDup]⟩ storeDup).duplicates.filter
      (fun e => e.row = 0 + 2)) = rowDups pdNone storeDup 0 rowDup := by
  refine ⟨rfl, by decide, ?_, ?_⟩
  · exact (C6_duplicate_reporting pdNone ⟨true, false, [rowDup]⟩ storeDup
      0 rowDup rfl).2.1
  · exact (C6_duplicate_reporting pdNone ⟨true, false, [rowDup]⟩ storeDup
      0 rowDup rfl).1

end ImpTracker
